import Mathlib

/-!
Verification of the deterministic matching-and-ranking core of the careers-ai
repository: the O*NET ingestion pipeline (`src/ingestion/build_career_profiles.py`),
the component data model (`src/core/career_components.py`), the person-profile
builder (`src/inference/answer_converter.py`, `src/core/profile.py`), the
component matchers and aggregator (`src/matching/`), and the ranking driver
(`src/scripts/rank_all_careers.py`).

Numbers are embedded as rationals (`ℚ`); Python dictionaries as insertion-ordered
association lists; a raw CSV cell that may fail `float(...)` as an `Option ℚ`;
Python exceptions as `Except String`.
-/

namespace CareersAI

/-- Modelled from the spec: `ingestion.utils.clamp`, imported by the component
classes (`core/career_components.py`) and the answer converter, is not among the
sources here; spec §3 states that component scores are clamped to `[0,1]`. -/
def clamp (x : ℚ) : ℚ := if x < 0 then 0 else if 1 < x then 1 else x

theorem clamp_eq_max_min (x : ℚ) : clamp x = max 0 (min 1 x) := by
  unfold clamp
  rcases lt_trichotomy x 0 with h | h | h
  · rw [if_pos h, max_eq_left]
    exact min_le_of_right_le h.le |>.trans (le_refl _) |>.trans (le_refl _) |>.trans le_rfl
  · subst h; norm_num
  · rw [if_neg (not_lt.mpr h.le)]
    rcases le_or_lt x 1 with h1 | h1
    · rw [if_neg (not_lt.mpr h1), min_eq_right h1, max_eq_right h.le]
    · rw [if_pos h1, min_eq_left h1.le]; norm_num

/-! ## Association-list model of Python `dict`

Insertion-ordered: overwriting keeps the key's position, a new key is appended.
-/

def alGet {β : Type} (l : List (String × β)) (k : String) : Option β :=
  (l.find? (fun p => p.1 == k)).map (·.2)

def alGetD {β : Type} (l : List (String × β)) (k : String) (d : β) : β :=
  (alGet l k).getD d

def alSet {β : Type} (l : List (String × β)) (k : String) (v : β) : List (String × β) :=
  match l with
  | [] => [(k, v)]
  | (k', v') :: rest => if k' == k then (k, v) :: rest else (k', v') :: alSet rest k v

/-- `dict` membership test. -/
def alMem {β : Type} (l : List (String × β)) (k : String) : Bool :=
  (alGet l k).isSome

/-! ## Scale normaliser

`normalise` in `src/ingestion/build_career_profiles.py` (lines 48-59); the raw
ranges come from the scale-range comment directly above it (lines 36-47).
An unknown scale identifier raises `ValueError`; every caller catches it and
skips the row, which is modelled by `normaliseStr` returning `none`.
-/

inductive Scale
  | LV | IM | IH | OI | WI | DR | VH | EX
deriving DecidableEq, Repr

def normalise (scale : Scale) (value : ℚ) : ℚ :=
  match scale with
  | .LV => value / 7
  | .IM => (value - 1) / 4
  | .IH => value / 6
  | .OI => (value - 1) / 6
  | .WI => value / 3
  | .DR => value / 10
  | .VH => (value - 1) / 5
  | .EX => (value - 1) / 6

/-- Declared minimum raw value of each scale (source comment, lines 36-47). -/
def scaleMin : Scale → ℚ
  | .LV => 0 | .IM => 1 | .IH => 0 | .OI => 1
  | .WI => -3 | .DR => 0 | .VH => 1 | .EX => 1

/-- Declared maximum raw value of each scale (source comment, lines 36-47). -/
def scaleMax : Scale → ℚ
  | .LV => 7 | .IM => 5 | .IH => 6 | .OI => 7
  | .WI => 3 | .DR => 10 | .VH => 6 | .EX => 7

def parseScale (s : String) : Option Scale :=
  if s == "LV" then some .LV
  else if s == "IM" then some .IM
  else if s == "IH" then some .IH
  else if s == "OI" then some .OI
  else if s == "WI" then some .WI
  else if s == "DR" then some .DR
  else if s == "VH" then some .VH
  else if s == "EX" then some .EX
  else none

/-- `normalise` as called with a string scale identifier and a raw cell that may
fail numeric parsing; `none` is the `ValueError` that ingestion catches. -/
def normaliseStr (scaleId : String) (raw : Option ℚ) : Option ℚ :=
  match raw, parseScale scaleId with
  | some v, some s => some (normalise s v)
  | _, _ => none

/-- C8: for every scale in the fixed enumeration, the declared minimum raw value
maps to exactly 0 and the declared maximum to exactly 1, except the signed scale
WI where −3 maps to −1 and 3 maps to 1; `normalise` is an affine map on each
scale, and raw values inside the declared range land inside the target range. -/
theorem normalise_scale_endpoints_and_affine :
    (normalise .LV 0 = 0 ∧ normalise .LV 7 = 1) ∧
    (normalise .IM 1 = 0 ∧ normalise .IM 5 = 1) ∧
    (normalise .IH 0 = 0 ∧ normalise .IH 6 = 1) ∧
    (normalise .OI 1 = 0 ∧ normalise .OI 7 = 1) ∧
    (normalise .WI (-3) = -1 ∧ normalise .WI 3 = 1) ∧
    (normalise .DR 0 = 0 ∧ normalise .DR 10 = 1) ∧
    (normalise .VH 1 = 0 ∧ normalise .VH 6 = 1) ∧
    (normalise .EX 1 = 0 ∧ normalise .EX 7 = 1) ∧
    (∀ (s : Scale) (t v w : ℚ),
      normalise s (t * v + (1 - t) * w) = t * normalise s v + (1 - t) * normalise s w) ∧
    (∀ (s : Scale) (v : ℚ), scaleMin s ≤ v → v ≤ scaleMax s →
      (if s = .WI then (-1 : ℚ) else 0) ≤ normalise s v ∧ normalise s v ≤ 1) := by
  refine ⟨⟨by norm_num [normalise], by norm_num [normalise]⟩,
    ⟨by norm_num [normalise], by norm_num [normalise]⟩,
    ⟨by norm_num [normalise], by norm_num [normalise]⟩,
    ⟨by norm_num [normalise], by norm_num [normalise]⟩,
    ⟨by norm_num [normalise], by norm_num [normalise]⟩,
    ⟨by norm_num [normalise], by norm_num [normalise]⟩,
    ⟨by norm_num [normalise], by norm_num [normalise]⟩,
    ⟨by norm_num [normalise], by norm_num [normalise]⟩, ?_, ?_⟩
  · intro s t v w
    cases s <;> simp only [normalise] <;> ring
  · intro s v hlo hhi
    cases s <;>
      first
        | (rw [if_pos rfl]
           simp only [normalise, scaleMin, scaleMax] at hlo hhi ⊢
           constructor <;> linarith)
        | (rw [if_neg (by decide)]
           simp only [normalise, scaleMin, scaleMax] at hlo hhi ⊢
           constructor <;> linarith)

/-- Witness for C8: the range clause instantiated at scale LV and raw value 3. -/
theorem normalise_scale_endpoints_and_affine_witness :
    (scaleMin .LV ≤ (3 : ℚ)) ∧ ((3 : ℚ) ≤ scaleMax .LV) ∧
    ((0 : ℚ) ≤ normalise .LV 3 ∧ normalise .LV 3 ≤ 1) := by
  refine ⟨by norm_num [scaleMin], by norm_num [scaleMax], ?_⟩
  have h := normalise_scale_endpoints_and_affine.2.2.2.2.2.2.2.2.2 .LV 3
    (by norm_num [scaleMin]) (by norm_num [scaleMax])
  simpa using h

/-! ## Component data model

`src/core/career_components.py`. Each component class initialises every
dimension of its fixed set to 0.0, then validates and clamps any supplied
scores; `set`/`__init__` raise `ValueError` on a dimension name outside the
fixed set. Consequently `scores` always holds exactly the fixed keys, in
declaration order, which is embedded as one structure field per dimension
plus a `scoresList` view in that order.
-/

structure Traits where
  analytical : ℚ := 0
  creative : ℚ := 0
  social : ℚ := 0
  leadership : ℚ := 0
  detail_oriented : ℚ := 0
  adaptability : ℚ := 0
deriving DecidableEq, Repr

def Traits.setE (t : Traits) (trait : String) (value : ℚ) : Except String Traits :=
  match trait with
  | "analytical" => .ok { t with analytical := clamp value }
  | "creative" => .ok { t with creative := clamp value }
  | "social" => .ok { t with social := clamp value }
  | "leadership" => .ok { t with leadership := clamp value }
  | "detail_oriented" => .ok { t with detail_oriented := clamp value }
  | "adaptability" => .ok { t with adaptability := clamp value }
  | _ => .error ("Invalid trait: " ++ trait)

/-- `Traits.__init__`: start from all-zero scores, then validate/clamp each
supplied entry in order. -/
def Traits.initE (scores : List (String × ℚ)) : Except String Traits :=
  scores.foldlM (fun t p => t.setE p.1 p.2) {}

def Traits.get (t : Traits) (trait : String) (d : ℚ) : ℚ :=
  match trait with
  | "analytical" => t.analytical
  | "creative" => t.creative
  | "social" => t.social
  | "leadership" => t.leadership
  | "detail_oriented" => t.detail_oriented
  | "adaptability" => t.adaptability
  | _ => d

def Traits.scoresList (t : Traits) : List (String × ℚ) :=
  [("analytical", t.analytical), ("creative", t.creative), ("social", t.social),
   ("leadership", t.leadership), ("detail_oriented", t.detail_oriented),
   ("adaptability", t.adaptability)]

structure Interests where
  technology : ℚ := 0
  science : ℚ := 0
  business : ℚ := 0
  arts : ℚ := 0
  social_impact : ℚ := 0
  hands_on : ℚ := 0
deriving DecidableEq, Repr

def Interests.setE (t : Interests) (interest : String) (value : ℚ) : Except String Interests :=
  match interest with
  | "technology" => .ok { t with technology := clamp value }
  | "science" => .ok { t with science := clamp value }
  | "business" => .ok { t with business := clamp value }
  | "arts" => .ok { t with arts := clamp value }
  | "social_impact" => .ok { t with social_impact := clamp value }
  | "hands_on" => .ok { t with hands_on := clamp value }
  | _ => .error ("Invalid interest: " ++ interest)

def Interests.initE (scores : List (String × ℚ)) : Except String Interests :=
  scores.foldlM (fun t p => t.setE p.1 p.2) {}

def Interests.get (t : Interests) (interest : String) (d : ℚ) : ℚ :=
  match interest with
  | "technology" => t.technology
  | "science" => t.science
  | "business" => t.business
  | "arts" => t.arts
  | "social_impact" => t.social_impact
  | "hands_on" => t.hands_on
  | _ => d

def Interests.scoresList (t : Interests) : List (String × ℚ) :=
  [("technology", t.technology), ("science", t.science), ("business", t.business),
   ("arts", t.arts), ("social_impact", t.social_impact), ("hands_on", t.hands_on)]

structure Aptitudes where
  numerical_reasoning : ℚ := 0
  verbal_reasoning : ℚ := 0
  spatial_reasoning : ℚ := 0
  logical_reasoning : ℚ := 0
  memory : ℚ := 0
deriving DecidableEq, Repr

def Aptitudes.setE (t : Aptitudes) (aptitude : String) (value : ℚ) : Except String Aptitudes :=
  match aptitude with
  | "numerical_reasoning" => .ok { t with numerical_reasoning := clamp value }
  | "verbal_reasoning" => .ok { t with verbal_reasoning := clamp value }
  | "spatial_reasoning" => .ok { t with spatial_reasoning := clamp value }
  | "logical_reasoning" => .ok { t with logical_reasoning := clamp value }
  | "memory" => .ok { t with memory := clamp value }
  | _ => .error ("Invalid aptitude: " ++ aptitude)

def Aptitudes.initE (scores : List (String × ℚ)) : Except String Aptitudes :=
  scores.foldlM (fun t p => t.setE p.1 p.2) {}

def Aptitudes.get (t : Aptitudes) (aptitude : String) (d : ℚ) : ℚ :=
  match aptitude with
  | "numerical_reasoning" => t.numerical_reasoning
  | "verbal_reasoning" => t.verbal_reasoning
  | "spatial_reasoning" => t.spatial_reasoning
  | "logical_reasoning" => t.logical_reasoning
  | "memory" => t.memory
  | _ => d

def Aptitudes.scoresList (t : Aptitudes) : List (String × ℚ) :=
  [("numerical_reasoning", t.numerical_reasoning), ("verbal_reasoning", t.verbal_reasoning),
   ("spatial_reasoning", t.spatial_reasoning), ("logical_reasoning", t.logical_reasoning),
   ("memory", t.memory)]

structure Values where
  stability : ℚ := 0
  financial_security : ℚ := 0
  prestige : ℚ := 0
  autonomy : ℚ := 0
  helping_others : ℚ := 0
  work_life_balance : ℚ := 0
deriving DecidableEq, Repr

def Values.setE (t : Values) (val : String) (value : ℚ) : Except String Values :=
  match val with
  | "stability" => .ok { t with stability := clamp value }
  | "financial_security" => .ok { t with financial_security := clamp value }
  | "prestige" => .ok { t with prestige := clamp value }
  | "autonomy" => .ok { t with autonomy := clamp value }
  | "helping_others" => .ok { t with helping_others := clamp value }
  | "work_life_balance" => .ok { t with work_life_balance := clamp value }
  | _ => .error ("Invalid value: " ++ val)

def Values.initE (scores : List (String × ℚ)) : Except String Values :=
  scores.foldlM (fun t p => t.setE p.1 p.2) {}

def Values.get (t : Values) (val : String) (d : ℚ) : ℚ :=
  match val with
  | "stability" => t.stability
  | "financial_security" => t.financial_security
  | "prestige" => t.prestige
  | "autonomy" => t.autonomy
  | "helping_others" => t.helping_others
  | "work_life_balance" => t.work_life_balance
  | _ => d

def Values.scoresList (t : Values) : List (String × ℚ) :=
  [("stability", t.stability), ("financial_security", t.financial_security),
   ("prestige", t.prestige), ("autonomy", t.autonomy),
   ("helping_others", t.helping_others), ("work_life_balance", t.work_life_balance)]

/-- The names of the fixed `Values` dimension set (`Values.VALUE_TYPES`). -/
def valueTypeNames : List String :=
  ["stability", "financial_security", "prestige", "autonomy",
   "helping_others", "work_life_balance"]

structure WorkStyles where
  team_based : ℚ := 0
  «structure» : ℚ := 0
  pace : ℚ := 0
  ambiguity_tolerance : ℚ := 0
deriving DecidableEq, Repr

def WorkStyles.setE (t : WorkStyles) (work_style : String) (value : ℚ) : Except String WorkStyles :=
  match work_style with
  | "team_based" => .ok { t with team_based := clamp value }
  | "structure" => .ok { t with «structure» := clamp value }
  | "pace" => .ok { t with pace := clamp value }
  | "ambiguity_tolerance" => .ok { t with ambiguity_tolerance := clamp value }
  | _ => .error ("Invalid work_style: " ++ work_style)

def WorkStyles.initE (scores : List (String × ℚ)) : Except String WorkStyles :=
  scores.foldlM (fun t p => t.setE p.1 p.2) {}

def WorkStyles.get (t : WorkStyles) (work_style : String) (d : ℚ) : ℚ :=
  match work_style with
  | "team_based" => t.team_based
  | "structure" => t.«structure»
  | "pace" => t.pace
  | "ambiguity_tolerance" => t.ambiguity_tolerance
  | _ => d

def WorkStyles.scoresList (t : WorkStyles) : List (String × ℚ) :=
  [("team_based", t.team_based), ("structure", t.«structure»),
   ("pace", t.pace), ("ambiguity_tolerance", t.ambiguity_tolerance)]

/-! ## Component matchers (`src/matching/`)

Each matcher iterates the role component's `scores.items()` and reads the
user side with `scores.get(name, 0.0)`.
-/

/-- `match_aptitudes` (`src/matching/aptitudes.py`). -/
def matchAptitudes (user role : Aptitudes) : ℚ :=
  role.scoresList.foldl (fun s kv => s + min (user.get kv.1 0) kv.2) 0

/-- `match_interests` (`src/matching/intersts.py`). -/
def matchInterests (user role : Interests) : ℚ :=
  role.scoresList.foldl (fun s kv => s + user.get kv.1 0 * kv.2) 0

/-- `match_traits` (`src/matching/traits.py`): negated L1 penalty. -/
def matchTraits (user role : Traits) : ℚ :=
  -(role.scoresList.foldl (fun p kv => p + |user.get kv.1 0 - kv.2|) 0)

/-- `match_values` (`src/matching/values.py`): role dimensions with
non-positive value are skipped. -/
def matchValues (user role : Values) : ℚ :=
  role.scoresList.foldl (fun s kv => if kv.2 ≤ 0 then s else s + user.get kv.1 0 * kv.2) 0

/-- `match_work_styles` (`src/matching/work_styles.py`): negated L1 penalty. -/
def matchWorkStyles (user role : WorkStyles) : ℚ :=
  -(role.scoresList.foldl (fun p kv => p + |user.get kv.1 0 - kv.2|) 0)

/-! ## Derived WorkStyles (`derive_work_styles`, build_career_profiles.py 350-386)

The source calls `WorkStyles({...}, False)` with a second positional argument,
but `WorkStyles.__init__` in `src/core/career_components.py` declares only
`(self, scores=None)`. Python raises `TypeError` for the extra positional
argument before the constructor body runs. The call is embedded through
`WorkStyles.callInit`, which models CPython positional-call semantics for that
specific signature.
-/

inductive PyArg
  | dictArg (d : List (String × ℚ))
  | boolArg (b : Bool)
deriving DecidableEq, Repr

/-- Positional call of `WorkStyles(...)` against the signature
`def __init__(self, scores=None)`: zero arguments use the default (`scores`
falsy, all dimensions 0), one dict argument runs the validating/clamping loop,
a falsy single argument skips the loop, and two or more positional arguments
raise `TypeError` before the body runs. -/
def WorkStyles.callInit : List PyArg → Except String WorkStyles
  | [] => .ok {}
  | [.dictArg d] => WorkStyles.initE d
  | [.boolArg false] => .ok {}
  | [.boolArg true] => .error "TypeError: bool object is not iterable"
  | _ => .error "TypeError: WorkStyles.__init__ takes from 1 to 2 positional arguments but more were given"

/-- `derive_work_styles`: for each occupation, read the five traits with
default 0, form the four fixed linear combinations, and call
`WorkStyles(scores_dict, False)` — two positional arguments, as in the source. -/
def deriveWorkStyles (traits_by_soc : List (String × Traits)) :
    Except String (List (String × WorkStyles)) :=
  traits_by_soc.foldlM (fun acc p => do
    let t := p.2
    let creative := t.get "creative" 0
    let social := t.get "social" 0
    let leadership := t.get "leadership" 0
    let detail_oriented := t.get "detail_oriented" 0
    let adaptability := t.get "adaptability" 0
    let team_based := social + leadership
    let pace := leadership + adaptability
    let «structure» := detail_oriented - adaptability
    let ambiguity_tolerance := adaptability + creative - detail_oriented
    let w ← WorkStyles.callInit
      [.dictArg [("team_based", team_based), ("structure", «structure»),
                 ("pace", pace), ("ambiguity_tolerance", ambiguity_tolerance)],
       .boolArg false]
    return alSet acc p.1 w) []

/-- C1 (code bug): `derive_work_styles` does not produce an unclamped
WorkStyles component — it raises `TypeError` on every occupation, because
`WorkStyles.__init__` accepts no second (clamp-flag) argument; and even the
one-argument constructor it does have clamps every score into `[0,1]`, so the
derived value `team_based = social + leadership = 7/5` would be stored as `1`,
not unclamped as the claim states. Evaluated at the failing input
`{"15-1252.00": Traits(social=3/5, leadership=4/5)}`. -/
theorem derive_work_styles_raises_type_error :
    deriveWorkStyles [("15-1252.00", { social := 3/5, leadership := 4/5 })] =
      .error "TypeError: WorkStyles.__init__ takes from 1 to 2 positional arguments but more were given" ∧
    WorkStyles.initE
      [("team_based", 7/5), ("structure", 0), ("pace", 4/5), ("ambiguity_tolerance", 0)] =
      .ok { team_based := 1, «structure» := 0, pace := 4/5, ambiguity_tolerance := 0 } ∧
    ((7 : ℚ)/5 ≠ 1) := by
  refine ⟨by rfl, ?_, by norm_num⟩
  simp [WorkStyles.initE, WorkStyles.setE, clamp, List.foldlM,
    Except.instMonad, Except.bind, Except.pure]
  norm_num

/-! ## Traits merge (`merge_traits`, build_career_profiles.py 304-346) -/

/-- Insertion-ordered deduplication standing for `set(ws) | set(wa)` (Python
set iteration order is unspecified; the merged content per key does not depend
on it). -/
def dedupKeys (l : List String) : List String :=
  l.foldl (fun acc k => if acc.contains k then acc else acc ++ [k]) []

/-- `merge_traits`: per occupation, sum and count every trait occurring in the
`scores` dict of whichever of the two sources has the occupation, then divide
and rebuild a `Traits`. Note that a `Traits` instance always carries all six
dimensions (zero-filled by `__init__`), so both sources contribute to every
count whenever the occupation is present in both maps. -/
def mergeTraits (ws_traits_by_soc wa_traits_by_soc : List (String × Traits)) :
    Except String (List (String × Traits)) :=
  let all_socs := dedupKeys (ws_traits_by_soc.map (·.1) ++ wa_traits_by_soc.map (·.1))
  all_socs.foldlM (fun acc soc => do
    let ws_items := match alGet ws_traits_by_soc soc with
      | some t => t.scoresList
      | none => []
    let wa_items := match alGet wa_traits_by_soc soc with
      | some t => t.scoresList
      | none => []
    let pairs := ws_items ++ wa_items
    let trait_sums := pairs.foldl (fun s kv => alSet s kv.1 (alGetD s kv.1 0 + kv.2)) []
    let trait_counts := pairs.foldl (fun c kv => alSet c kv.1 (alGetD c kv.1 0 + 1)) ([] : List (String × ℚ))
    let averaged := trait_sums.map (fun kv => (kv.1, kv.2 / alGetD trait_counts kv.1 0))
    let merged ← Traits.initE averaged
    return alSet acc soc merged) []

/-- C2 (code bug): a trait produced by only one of the two sources is not kept
unmodified. Because `Traits.__init__` zero-fills all six dimensions, every
dimension is present in both `scores` dicts whenever an occupation appears in
both maps, so `merge_traits` divides by a count of 2 everywhere: a creative
score of 3/5 coming only from the work-styles source merges to 3/10, not 3/5.
Evaluated at the failing input
`ws = {"S": Traits(creative=3/5)}, wa = {"S": Traits(analytical=2/5)}`. -/
theorem merge_traits_halves_single_source_dimension :
    mergeTraits [("S", { creative := 3/5 })] [("S", { analytical := 2/5 })] =
      .ok [("S", { analytical := 1/5, creative := 3/10 })] ∧
    ((3 : ℚ)/10 ≠ 3/5) := by
  refine ⟨?_, by norm_num⟩
  simp [mergeTraits, dedupKeys, Traits.initE, Traits.setE, Traits.scoresList,
    alGet, alGetD, alSet, clamp, List.foldlM,
    Except.instMonad, Except.bind, Except.pure]
  norm_num

/-! ## Catalogue assembly (`build_all_career_profiles`, build_career_profiles.py 395-415)

The defaults for absent components are fresh zero instances `Aptitudes()`,
`Interests()`, `Traits()`, `Values()` — but for work styles the source reads
`ws.get(soc_code, WorkStyles)`: the *class object* itself, not an instance.
The class `WorkStyles` has no `scores` attribute (it is assigned only on
instances, inside `__init__`), so any later `role_ws.scores` access on such a
profile raises `AttributeError`.
-/

/-- What the `work_styles` slot of a built profile can hold: an instance, or
the class object `WorkStyles` passed as the `.get` default. -/
inductive WSField
  | inst (w : WorkStyles)
  | classObj
deriving DecidableEq, Repr

/-- Attribute access `.scores` on the work-styles slot: succeeds on an
instance, raises `AttributeError` on the class object. -/
def WSField.scoresE : WSField → Except String (List (String × ℚ))
  | .inst w => .ok w.scoresList
  | .classObj => .error "AttributeError: type object WorkStyles has no attribute scores"

structure BuiltCareerProfile where
  soc_code : String
  aptitudes : Aptitudes
  interests : Interests
  traits : Traits
  values : Values
  work_styles : WSField
deriving DecidableEq, Repr

/-- `build_all_career_profiles`, parametrised by the per-source component maps
it has just built: one `CareerProfile` per catalogued code, missing components
defaulting per the source (`Component()` instances, except the work-styles
class object). -/
def buildAllCareerProfiles (socCodes : List String)
    (apts : List (String × Aptitudes)) (ints : List (String × Interests))
    (tr : List (String × Traits)) (vals : List (String × Values))
    (ws : List (String × WorkStyles)) : List (String × BuiltCareerProfile) :=
  socCodes.foldl (fun acc soc =>
    alSet acc soc
      { soc_code := soc
        aptitudes := alGetD apts soc {}
        interests := alGetD ints soc {}
        traits := alGetD tr soc {}
        values := alGetD vals soc {}
        work_styles :=
          match alGet ws soc with
          | some w => .inst w
          | none => .classObj }) []

/-- `match_work_styles` as it executes against a built profile's work-styles
slot: first the `role_ws.scores` attribute access, then the penalty loop. -/
def matchWorkStylesE (userWS : WorkStyles) (roleWS : WSField) : Except String ℚ := do
  let scores ← roleWS.scoresE
  return -(scores.foldl (fun p kv => p + |userWS.get kv.1 0 - kv.2|) 0)

/-- C3 (code bug): an occupation code absent from the work-styles map does not
get an all-zero `WorkStyles()` instance — it gets the class object
(`ws.get(soc_code, WorkStyles)`, missing parentheses), and computing its
work-styles match score then raises `AttributeError` instead of producing a
complete result. The other four components do default to all-zero instances.
Evaluated at a catalogue containing the code `"99-9999.00"` with every source
map empty. -/
theorem build_all_career_profiles_work_styles_class_default :
    buildAllCareerProfiles ["99-9999.00"] [] [] [] [] [] =
      [("99-9999.00",
        { soc_code := "99-9999.00", aptitudes := {}, interests := {},
          traits := {}, values := {}, work_styles := .classObj })] ∧
    matchWorkStylesE {} .classObj =
      .error "AttributeError: type object WorkStyles has no attribute scores" := by
  refine ⟨by rfl, by rfl⟩

/-! ## Aggregator (`src/matching/aggregate.py`)

`aggregate_match` is split into its intermediate values so the theorems can
speak about the blended weights and the pre-bonus base total by name.
-/

def COMPONENT_WEIGHTS : List (String × ℚ) :=
  [("aptitudes", 1), ("interests", 12/10), ("traits", 1),
   ("values", 8/10), ("work_styles", 11/10)]

def METADATA_KEYS : List String :=
  ["profile_peakiness", "career_specificity", "peak_alignment"]

def FLAT_PROFILE_THRESHOLD : ℚ := 3/10

def PEAK_ALIGNMENT_BONUS : ℚ := 15/100

/-- For flat profiles (`peakiness < 0.3`) blend weights towards uniform. -/
def blendOf (profile_peakiness : ℚ) : ℚ :=
  if profile_peakiness < FLAT_PROFILE_THRESHOLD then
    profile_peakiness / FLAT_PROFILE_THRESHOLD
  else 1

/-- `weight = 1.0 + blend * (normal_weight - 1.0)`. -/
def blendedWeight (blend : ℚ) (component : String) : ℚ :=
  1 + blend * (alGetD COMPONENT_WEIGHTS component 1 - 1)

/-- The `weighted_components` dict: non-metadata entries times their blended
weight. -/
def weightedComponents (scores : List (String × ℚ)) : List (String × ℚ) :=
  let profile_peakiness := alGetD scores "profile_peakiness" 0
  (scores.filter (fun kv => !METADATA_KEYS.contains kv.1)).map
    (fun kv => (kv.1, blendedWeight (blendOf profile_peakiness) kv.1 * kv.2))

/-- The flat-profile capping pass: blend outlier magnitudes toward the mean
absolute value, proportionally to flatness. -/
def cappedComponents (scores : List (String × ℚ)) : List (String × ℚ) :=
  let profile_peakiness := alGetD scores "profile_peakiness" 0
  let wc := weightedComponents scores
  if profile_peakiness < FLAT_PROFILE_THRESHOLD ∧ wc ≠ [] then
    let flatness := 1 - profile_peakiness / FLAT_PROFILE_THRESHOLD
    let mean_abs := (wc.map (fun kv => |kv.2|)).sum / wc.length
    wc.map (fun kv =>
      (kv.1,
        if |kv.2| > mean_abs then
          kv.2 + flatness * ((if kv.2 ≥ 0 then mean_abs else -mean_abs) - kv.2)
        else kv.2))
  else wc

/-- `total = sum(weighted_components.values())` before the peak-alignment
bonus. -/
def baseTotal (scores : List (String × ℚ)) : ℚ :=
  ((cappedComponents scores).map (·.2)).sum

/-- `aggregate_match`: base total, then a multiplicative peak-alignment bonus
when both peakiness and specificity reach the flatness threshold. -/
def aggregateMatch (scores : List (String × ℚ)) : ℚ :=
  let profile_peakiness := alGetD scores "profile_peakiness" 0
  let career_specificity := alGetD scores "career_specificity" 0
  let peak_alignment := alGetD scores "peak_alignment" 0
  let total := baseTotal scores
  if FLAT_PROFILE_THRESHOLD ≤ profile_peakiness ∧
      FLAT_PROFILE_THRESHOLD ≤ career_specificity then
    total * (1 + peak_alignment / 3 * PEAK_ALIGNMENT_BONUS)
  else
    total

/-- C6: when `profile_peakiness` is 0, the blended per-component weight is
exactly 1 for every component name, so the weighted contributions equal the
raw component scores: the fixed weight table has no effect on a perfectly
flat person profile. -/
theorem aggregate_match_flat_profile_uniform_weights :
    ∀ scores : List (String × ℚ),
      alGetD scores "profile_peakiness" 0 = 0 →
      (∀ component : String,
        blendedWeight (blendOf (alGetD scores "profile_peakiness" 0)) component = 1) ∧
      weightedComponents scores = scores.filter (fun kv => !METADATA_KEYS.contains kv.1) := by
  intro scores h
  have hblend : blendOf (alGetD scores "profile_peakiness" 0) = 0 := by
    rw [h]; norm_num [blendOf, FLAT_PROFILE_THRESHOLD]
  have hw : ∀ component : String,
      blendedWeight (blendOf (alGetD scores "profile_peakiness" 0)) component = 1 := by
    intro component
    rw [hblend]
    simp [blendedWeight]
  refine ⟨hw, ?_⟩
  unfold weightedComponents
  rw [show (alGetD scores "profile_peakiness" 0 : ℚ) = 0 from h]
  have : ∀ kv : String × ℚ, (kv.1, blendedWeight (blendOf 0) kv.1 * kv.2) = kv := by
    intro kv
    have h1 : blendedWeight (blendOf 0) kv.1 = 1 := by
      have := hw kv.1
      rwa [h] at this
    rw [h1, one_mul]
  simp only [this]
  simp

/-- Witness for C6, at a profile with `profile_peakiness = 0` and an
interests score of 1/2: the interests weight is exactly 1 and the weighted
contributions are the unweighted non-metadata entries. -/
theorem aggregate_match_flat_profile_uniform_weights_witness :
    alGetD [("interests", (1:ℚ)/2), ("profile_peakiness", 0)] "profile_peakiness" 0 = 0 ∧
    blendedWeight
      (blendOf (alGetD [("interests", (1:ℚ)/2), ("profile_peakiness", 0)] "profile_peakiness" 0))
      "interests" = 1 ∧
    weightedComponents [("interests", (1:ℚ)/2), ("profile_peakiness", 0)] =
      [("interests", (1:ℚ)/2)] := by
  have h : alGetD [("interests", (1:ℚ)/2), ("profile_peakiness", 0)] "profile_peakiness" 0 = 0 := by
    simp [alGetD, alGet, List.find?]
  have main := aggregate_match_flat_profile_uniform_weights
    [("interests", (1:ℚ)/2), ("profile_peakiness", 0)] h
  refine ⟨h, main.1 "interests", ?_⟩
  rw [main.2]
  simp [METADATA_KEYS, List.filter]

/-- C10: a concrete `aggregate_match` input showing the peak-alignment
"bonus" making things worse: the user has all-zero traits while the role
requires `analytical = 1`, so `match_traits` returns the negated penalty −1;
with `profile_peakiness = career_specificity = 0.3` and `peak_alignment = 3`
the thresholds are met, the weighted base total is −1, and the multiplicative
bonus returns −23/20, strictly lower than the base total. -/
def bonusAnomalyScores : List (String × ℚ) :=
  [("aptitudes", 0), ("interests", 0),
   ("traits", matchTraits {} { analytical := 1 }),
   ("values", 0), ("work_styles", 0),
   ("profile_peakiness", 3/10), ("career_specificity", 3/10),
   ("peak_alignment", 3)]

/-- C10: for this input with peakiness and specificity at the threshold,
positive peak alignment, and a negative weighted base total (coming from the
traits matcher's negated penalty), the score returned by `aggregate_match` is
strictly lower than the base total. -/
theorem aggregate_match_bonus_lowers_negative_total :
    matchTraits {} { analytical := 1 } = -1 ∧
    FLAT_PROFILE_THRESHOLD ≤ alGetD bonusAnomalyScores "profile_peakiness" 0 ∧
    FLAT_PROFILE_THRESHOLD ≤ alGetD bonusAnomalyScores "career_specificity" 0 ∧
    0 < alGetD bonusAnomalyScores "peak_alignment" 0 ∧
    baseTotal bonusAnomalyScores = -1 ∧
    aggregateMatch bonusAnomalyScores = -23/20 ∧
    aggregateMatch bonusAnomalyScores < baseTotal bonusAnomalyScores := by
  have hmt : matchTraits {} ({ analytical := 1 } : Traits) = -1 := by
    norm_num [matchTraits, Traits.scoresList, Traits.get]
  have hbase : baseTotal bonusAnomalyScores = -1 := by
    simp [baseTotal, cappedComponents, weightedComponents, bonusAnomalyScores, hmt,
      alGetD, alGet, METADATA_KEYS, blendedWeight, blendOf, FLAT_PROFILE_THRESHOLD,
      COMPONENT_WEIGHTS, List.find?, List.filter]
  have hagg : aggregateMatch bonusAnomalyScores = -23/20 := by
    rw [aggregateMatch, hbase]
    simp [bonusAnomalyScores, alGetD, alGet, FLAT_PROFILE_THRESHOLD,
      PEAK_ALIGNMENT_BONUS, hmt, List.find?]
    norm_num
  refine ⟨hmt, ?_, ?_, ?_, hbase, hagg, ?_⟩
  · simp [bonusAnomalyScores, alGetD, alGet, FLAT_PROFILE_THRESHOLD, hmt, List.find?]
  · simp [bonusAnomalyScores, alGetD, alGet, FLAT_PROFILE_THRESHOLD, hmt, List.find?]
  · simp [bonusAnomalyScores, alGetD, alGet, hmt, List.find?]
  · rw [hagg, hbase]; norm_num

/-! ## Profiles and matching orchestration

`PsychometricProfile` (`src/core/profile.py`): five components plus a
confidence scalar, initialised to 0.0 by the constructor. `CareerProfile`
(`src/models/career_profile.py`): a plain container of the five career-side
components. `match_user_to_role` (`src/matching/engine.py`) computes the five
matcher scores, the two peakiness metrics, the peak-alignment count, then the
aggregate total. Python's `statistics.stdev` is an external library function
and is passed as a parameter `stdev`.
-/

structure PsychometricProfile where
  aptitudes : Aptitudes := {}
  interests : Interests := {}
  traits : Traits := {}
  values : Values := {}
  work_styles : WorkStyles := {}
  confidence : ℚ := 0
deriving DecidableEq, Repr

structure CareerProfile where
  soc_code : String
  aptitudes : Aptitudes
  interests : Interests
  traits : Traits
  values : Values
  work_styles : WorkStyles
deriving DecidableEq, Repr

/-- `_get_all_scores`: flatten all dimension scores into one dict with
`component.dim` keys, components in the fixed tuple order. -/
def PsychometricProfile.allScores (p : PsychometricProfile) : List (String × ℚ) :=
  p.aptitudes.scoresList.map (fun kv => ("aptitudes." ++ kv.1, kv.2)) ++
  p.interests.scoresList.map (fun kv => ("interests." ++ kv.1, kv.2)) ++
  p.traits.scoresList.map (fun kv => ("traits." ++ kv.1, kv.2)) ++
  p.values.scoresList.map (fun kv => ("values." ++ kv.1, kv.2)) ++
  p.work_styles.scoresList.map (fun kv => ("work_styles." ++ kv.1, kv.2))

def CareerProfile.allScores (p : CareerProfile) : List (String × ℚ) :=
  p.aptitudes.scoresList.map (fun kv => ("aptitudes." ++ kv.1, kv.2)) ++
  p.interests.scoresList.map (fun kv => ("interests." ++ kv.1, kv.2)) ++
  p.traits.scoresList.map (fun kv => ("traits." ++ kv.1, kv.2)) ++
  p.values.scoresList.map (fun kv => ("values." ++ kv.1, kv.2)) ++
  p.work_styles.scoresList.map (fun kv => ("work_styles." ++ kv.1, kv.2))

/-- `_compute_peakiness`: 0 for fewer than two values, else the sample
standard deviation normalised by the maximal stdev 0.5 and capped at 1. -/
def computePeakiness (stdev : List ℚ → ℚ) (values : List ℚ) : ℚ :=
  if values.length < 2 then 0 else min (stdev values / (1/2)) 1

/-- `_top_n_dimensions`: keys of the `n` highest-scoring entries (stable
descending sort by score, like `sorted(..., reverse=True)`). -/
def topNDimensions (scores : List (String × ℚ)) (n : ℕ) : List String :=
  ((scores.mergeSort (fun a b => decide (b.2 ≤ a.2))).take n).map (·.1)

/-- `match_user_to_role`: the component-score dict in insertion order —
five matcher scores, `profile_peakiness`, `career_specificity`,
`peak_alignment`, and finally `total` (computed by `aggregate_match` over the
dict as it stands before `total` is inserted). -/
def matchUserToRole (stdev : List ℚ → ℚ) (user : PsychometricProfile)
    (role : CareerProfile) : List (String × ℚ) :=
  let component_scores : List (String × ℚ) :=
    [("aptitudes", matchAptitudes user.aptitudes role.aptitudes),
     ("interests", matchInterests user.interests role.interests),
     ("traits", matchTraits user.traits role.traits),
     ("values", matchValues user.values role.values),
     ("work_styles", matchWorkStyles user.work_styles role.work_styles)]
  let profile_scores := user.allScores
  let career_scores := role.allScores
  let profile_peakiness := computePeakiness stdev (profile_scores.map (·.2))
  let career_specificity := computePeakiness stdev (career_scores.map (·.2))
  let profile_top3 := topNDimensions profile_scores 3
  let career_top3 := topNDimensions career_scores 3
  let peak_alignment := (profile_top3.filter (fun d => career_top3.contains d)).length
  let withMeta := component_scores ++
    [("profile_peakiness", profile_peakiness),
     ("career_specificity", career_specificity),
     ("peak_alignment", (peak_alignment : ℚ))]
  withMeta ++ [("total", aggregateMatch withMeta)]

/-! ## Ranking driver (`rank_profiles`, `src/scripts/rank_all_careers.py` 6-23)

The catalogue parameter stands for the `career_profiles` dict built by
`build_all_career_profiles` (a Python dict, so its keys are unique); the
driver's own logic — score every occupation, then sort the (code, total)
pairs by total descending — is what is embedded.
-/

def rankProfiles (stdev : List ℚ → ℚ) (user_profile : PsychometricProfile)
    (career_profiles : List (String × CareerProfile)) :
    List (String × List (String × ℚ)) × List (String × ℚ) :=
  let results := career_profiles.map
    (fun sc => (sc.1, matchUserToRole stdev user_profile sc.2))
  let rank_list := career_profiles.map
    (fun sc => (sc.1, alGetD (matchUserToRole stdev user_profile sc.2) "total" 0))
  (results, rank_list.mergeSort (fun a b => decide (b.2 ≤ a.2)))

/-- C9: for every person profile and every catalogue (and any stdev
implementation), the ranked sequence has exactly one entry per catalogued
occupation — same length, and its occupation codes are a permutation of the
catalogue's — with totals in non-increasing order; and an empty catalogue
yields an empty ranked sequence rather than an error. -/
theorem rank_profiles_complete_sorted_and_total_on_empty :
    (∀ (stdev : List ℚ → ℚ) (user : PsychometricProfile)
       (career_profiles : List (String × CareerProfile)),
      (rankProfiles stdev user career_profiles).2.length = career_profiles.length ∧
      ((rankProfiles stdev user career_profiles).2.map (·.1)).Perm
        (career_profiles.map (·.1)) ∧
      List.Pairwise (fun a b : String × ℚ => b.2 ≤ a.2)
        (rankProfiles stdev user career_profiles).2) ∧
    (∀ (stdev : List ℚ → ℚ) (user : PsychometricProfile),
      (rankProfiles stdev user []).2 = []) := by
  constructor
  · intro stdev user career_profiles
    refine ⟨?_, ?_, ?_⟩
    · simp [rankProfiles]
    · have hperm : ((career_profiles.map
          (fun sc => (sc.1, alGetD (matchUserToRole stdev user sc.2) "total" 0))).mergeSort
            (fun a b => decide (b.2 ≤ a.2))).Perm
          (career_profiles.map
            (fun sc => (sc.1, alGetD (matchUserToRole stdev user sc.2) "total" 0))) :=
        List.mergeSort_perm _ _
      have := hperm.map (·.1)
      simpa [rankProfiles, List.map_map, Function.comp] using this
    · have hs : ((career_profiles.map
          (fun sc => (sc.1, alGetD (matchUserToRole stdev user sc.2) "total" 0))).mergeSort
            (fun a b => decide (b.2 ≤ a.2))).Pairwise
          (fun a b => (fun x y : String × ℚ => decide (y.2 ≤ x.2)) a b = true) :=
        List.sorted_mergeSort
          (fun a b c hab hbc => by
            simp only [decide_eq_true_eq] at hab hbc ⊢
            exact le_trans hbc hab)
          (fun a b => by
            simp only [Bool.or_eq_true, decide_eq_true_eq]
            exact le_total b.2 a.2)
          _
      refine List.Pairwise.imp ?_ hs
      intro a b h
      simpa using h
  · intro stdev user
    simp [rankProfiles, List.mergeSort]

/-! ## Person profile builder

`convert_answers_to_profile` (`src/inference/answer_converter.py` 48-78): maps
quiz answers through `QUESTION_MAPPING` into per-component buckets, averages,
divides by 5, clamps, and constructs a `PsychometricProfile` from the five
components — the constructor initialises `confidence = 0.0` and the converter
never touches it. The incremental pathway `add_answer`/`finalise`
(`src/core/profile.py`) accumulates totals and counts and is the only place
the `min(total_answers / 20, 1.0)` confidence formula runs.
-/

def QUESTION_MAPPING : List (String × String × String) :=
  [("A1", "aptitudes", "numerical_reasoning"),
   ("A2", "aptitudes", "verbal_reasoning"),
   ("A3", "aptitudes", "spatial_reasoning"),
   ("A4", "aptitudes", "logical_reasoning"),
   ("A5", "aptitudes", "memory"),
   ("I1", "interests", "technology"),
   ("I2", "interests", "science"),
   ("I3", "interests", "business"),
   ("I4", "interests", "arts"),
   ("I5", "interests", "social_impact"),
   ("I6", "interests", "hands_on"),
   ("T1", "traits", "analytical"),
   ("T2", "traits", "creative"),
   ("T3", "traits", "social"),
   ("T4", "traits", "leadership"),
   ("T5", "traits", "detail_oriented"),
   ("T6", "traits", "adaptability"),
   ("V1", "values", "stability"),
   ("V2", "values", "financial_security"),
   ("V3", "values", "prestige"),
   ("V4", "values", "autonomy"),
   ("V5", "values", "helping_others"),
   ("V6", "values", "work_life_balance"),
   ("W1", "work_styles", "team_based"),
   ("W2", "work_styles", "structure"),
   ("W3", "work_styles", "pace"),
   ("W4", "work_styles", "ambiguity_tolerance")]

def bucketsInit : List (String × List (String × List ℤ)) :=
  [("aptitudes", []), ("interests", []), ("traits", []), ("values", []), ("work_styles", [])]

/-- The bucket-filling loop: unmapped question ids are skipped; a mapped
answer is appended to its (component, dimension) bucket. -/
def bucketsOf (answers : List (String × ℤ)) : List (String × List (String × List ℤ)) :=
  answers.foldl (fun b qa =>
    match alGet QUESTION_MAPPING qa.1 with
    | none => b
    | some cd =>
      alSet b cd.1 (alSet (alGetD b cd.1 []) cd.2 (alGetD (alGetD b cd.1 []) cd.2 [] ++ [qa.2])))
    bucketsInit

/-- `avg_normalized`: `clamp(mean(v) / 5)` per dimension. -/
def avgNormalized (d : List (String × List ℤ)) : List (String × ℚ) :=
  d.map (fun kv => (kv.1, clamp ((kv.2.map (fun i => (i : ℚ))).sum / kv.2.length / 5)))

/-- `convert_answers_to_profile`: build the five components from the buckets
and hand them to the `PsychometricProfile` constructor (which initialises
`confidence = 0.0`); `finalise` is never called on this path. -/
def convertAnswersToProfile (answers : List (String × ℤ)) :
    Except String PsychometricProfile := do
  let buckets := bucketsOf answers
  let aptitudes ← Aptitudes.initE (avgNormalized (alGetD buckets "aptitudes" []))
  let interests ← Interests.initE (avgNormalized (alGetD buckets "interests" []))
  let traits ← Traits.initE (avgNormalized (alGetD buckets "traits" []))
  let values ← Values.initE (avgNormalized (alGetD buckets "values" []))
  let work_styles ← WorkStyles.initE (avgNormalized (alGetD buckets "work_styles" []))
  return { aptitudes := aptitudes, interests := interests, traits := traits,
           values := values, work_styles := work_styles, confidence := 0 }

/-! ### The incremental `add_answer` / `finalise` pathway (`src/core/profile.py`) -/

def traitTypeNames : List String :=
  ["analytical", "creative", "social", "leadership", "detail_oriented", "adaptability"]

def interestTypeNames : List String :=
  ["technology", "science", "business", "arts", "social_impact", "hands_on"]

def aptitudeTypeNames : List String :=
  ["numerical_reasoning", "verbal_reasoning", "spatial_reasoning", "logical_reasoning", "memory"]

def workStyleTypeNames : List String :=
  ["team_based", "structure", "pace", "ambiguity_tolerance"]

structure Answer where
  question_type : String
  target : String
  answer : ℚ
deriving DecidableEq, Repr

/-- `PsychometricProfile._validate`: the question type must be one of the five
kinds and the target must belong to the corresponding component's fixed
dimension set (a component's `scores` dict always holds exactly that set). -/
def validateAnswer (a : Answer) : Except String Unit :=
  if !(["trait", "interest", "aptitude", "value", "work_style"].contains a.question_type) then
    .error ("Invalid question_type: " ++ a.question_type)
  else if a.question_type == "trait" && !(traitTypeNames.contains a.target) then
    .error ("Invalid trait target: " ++ a.target)
  else if a.question_type == "interest" && !(interestTypeNames.contains a.target) then
    .error ("Invalid interest target: " ++ a.target)
  else if a.question_type == "aptitude" && !(aptitudeTypeNames.contains a.target) then
    .error ("Invalid aptitude target: " ++ a.target)
  else if a.question_type == "value" && !(valueTypeNames.contains a.target) then
    .error ("Invalid value target: " ++ a.target)
  else if a.question_type == "work_style" && !(workStyleTypeNames.contains a.target) then
    .error ("Invalid work_style target: " ++ a.target)
  else
    .ok ()

/-- The mutable state of a `PsychometricProfile` being built incrementally:
the five components, the per-kind running totals and counts, the answer
counter, and the confidence scalar (0.0 until `finalise`). -/
structure PsychState where
  traits : Traits := {}
  interests : Interests := {}
  aptitudes : Aptitudes := {}
  values : Values := {}
  work_styles : WorkStyles := {}
  trait_totals : List (String × ℚ) := []
  trait_counts : List (String × ℚ) := []
  interest_totals : List (String × ℚ) := []
  interest_counts : List (String × ℚ) := []
  aptitude_totals : List (String × ℚ) := []
  aptitude_counts : List (String × ℚ) := []
  value_totals : List (String × ℚ) := []
  value_counts : List (String × ℚ) := []
  work_style_totals : List (String × ℚ) := []
  work_style_counts : List (String × ℚ) := []
  total_answers : ℕ := 0
  confidence : ℚ := 0
deriving DecidableEq, Repr

/-- The state update performed by `add_answer` after validation: accumulate
the target's total and count in the branch for the answer's kind, then
increment the answer counter. -/
def PsychState.addAnswerBody (st : PsychState) (a : Answer) : PsychState :=
  let st' :=
    if a.question_type == "trait" then
      { st with
        trait_totals := alSet st.trait_totals a.target (alGetD st.trait_totals a.target 0 + a.answer),
        trait_counts := alSet st.trait_counts a.target (alGetD st.trait_counts a.target 0 + 1) }
    else if a.question_type == "interest" then
      { st with
        interest_totals := alSet st.interest_totals a.target (alGetD st.interest_totals a.target 0 + a.answer),
        interest_counts := alSet st.interest_counts a.target (alGetD st.interest_counts a.target 0 + 1) }
    else if a.question_type == "aptitude" then
      { st with
        aptitude_totals := alSet st.aptitude_totals a.target (alGetD st.aptitude_totals a.target 0 + a.answer),
        aptitude_counts := alSet st.aptitude_counts a.target (alGetD st.aptitude_counts a.target 0 + 1) }
    else if a.question_type == "value" then
      { st with
        value_totals := alSet st.value_totals a.target (alGetD st.value_totals a.target 0 + a.answer),
        value_counts := alSet st.value_counts a.target (alGetD st.value_counts a.target 0 + 1) }
    else if a.question_type == "work_style" then
      { st with
        work_style_totals := alSet st.work_style_totals a.target (alGetD st.work_style_totals a.target 0 + a.answer),
        work_style_counts := alSet st.work_style_counts a.target (alGetD st.work_style_counts a.target 0 + 1) }
    else st
  { st' with total_answers := st'.total_answers + 1 }

/-- `PsychometricProfile.add_answer`: `_validate`, then the accumulation. -/
def PsychState.addAnswer (st : PsychState) (a : Answer) : Except String PsychState := do
  let _ ← validateAnswer a
  return st.addAnswerBody a

/-- `PsychometricProfile.finalise`: write each accumulated average into its
component via the validating `set`, then set
`confidence = min(total_answers / 20, 1.0)`. -/
def PsychState.finalise (st : PsychState) : Except String PsychState := do
  let traits ← st.trait_totals.foldlM
    (fun (t : Traits) kv => t.setE kv.1 (kv.2 / alGetD st.trait_counts kv.1 0)) st.traits
  let interests ← st.interest_totals.foldlM
    (fun (t : Interests) kv => t.setE kv.1 (kv.2 / alGetD st.interest_counts kv.1 0)) st.interests
  let aptitudes ← st.aptitude_totals.foldlM
    (fun (t : Aptitudes) kv => t.setE kv.1 (kv.2 / alGetD st.aptitude_counts kv.1 0)) st.aptitudes
  let values ← st.value_totals.foldlM
    (fun (t : Values) kv => t.setE kv.1 (kv.2 / alGetD st.value_counts kv.1 0)) st.values
  let work_styles ← st.work_style_totals.foldlM
    (fun (t : WorkStyles) kv => t.setE kv.1 (kv.2 / alGetD st.work_style_counts kv.1 0)) st.work_styles
  return { st with
    traits := traits, interests := interests, aptitudes := aptitudes,
    values := values, work_styles := work_styles,
    confidence := min ((st.total_answers : ℚ) / 20) 1 }

/-! ### C7 lemmas -/

theorem alSet_mem {β : Type} (l : List (String × β)) (k : String) (v : β) :
    ∀ kv ∈ alSet l k v, kv.1 = k ∨ kv ∈ l := by
  induction l with
  | nil =>
    intro kv hkv
    simp [alSet] at hkv
    subst hkv
    exact Or.inl rfl
  | cons hd tl ih =>
    intro kv hkv
    unfold alSet at hkv
    by_cases hk : hd.1 == k
    · rw [if_pos hk] at hkv
      rcases List.mem_cons.mp hkv with h | h
      · subst h; exact Or.inl rfl
      · exact Or.inr (List.mem_cons_of_mem _ h)
    · rw [if_neg hk] at hkv
      rcases List.mem_cons.mp hkv with h | h
      · subst h; exact Or.inr (List.mem_cons_self _ _)
      · rcases ih kv h with h' | h'
        · exact Or.inl h'
        · exact Or.inr (List.mem_cons_of_mem _ h')

/-- Keys that may appear in each totals dict of a profile state being built:
only valid dimension names of the corresponding component. -/
def TotalsInv (st : PsychState) : Prop :=
  (∀ kv ∈ st.trait_totals, kv.1 ∈ traitTypeNames) ∧
  (∀ kv ∈ st.interest_totals, kv.1 ∈ interestTypeNames) ∧
  (∀ kv ∈ st.aptitude_totals, kv.1 ∈ aptitudeTypeNames) ∧
  (∀ kv ∈ st.value_totals, kv.1 ∈ valueTypeNames) ∧
  (∀ kv ∈ st.work_style_totals, kv.1 ∈ workStyleTypeNames)

theorem traits_setE_ok (t : Traits) (k : String) (v : ℚ)
    (h : k ∈ traitTypeNames) : ∃ t', Traits.setE t k v = .ok t' := by
  simp [traitTypeNames] at h
  rcases h with rfl | rfl | rfl | rfl | rfl | rfl <;> exact ⟨_, rfl⟩

theorem interests_setE_ok (t : Interests) (k : String) (v : ℚ)
    (h : k ∈ interestTypeNames) : ∃ t', Interests.setE t k v = .ok t' := by
  simp [interestTypeNames] at h
  rcases h with rfl | rfl | rfl | rfl | rfl | rfl <;> exact ⟨_, rfl⟩

theorem aptitudes_setE_ok (t : Aptitudes) (k : String) (v : ℚ)
    (h : k ∈ aptitudeTypeNames) : ∃ t', Aptitudes.setE t k v = .ok t' := by
  simp [aptitudeTypeNames] at h
  rcases h with rfl | rfl | rfl | rfl | rfl <;> exact ⟨_, rfl⟩

theorem values_setE_ok (t : Values) (k : String) (v : ℚ)
    (h : k ∈ valueTypeNames) : ∃ t', Values.setE t k v = .ok t' := by
  simp [valueTypeNames] at h
  rcases h with rfl | rfl | rfl | rfl | rfl | rfl <;> exact ⟨_, rfl⟩

theorem work_styles_setE_ok (t : WorkStyles) (k : String) (v : ℚ)
    (h : k ∈ workStyleTypeNames) : ∃ t', WorkStyles.setE t k v = .ok t' := by
  simp [workStyleTypeNames] at h
  rcases h with rfl | rfl | rfl | rfl <;> exact ⟨_, rfl⟩

theorem traits_foldl_setE_ok (totals : List (String × ℚ)) (f : String × ℚ → ℚ) :
    ∀ t : Traits, (∀ kv ∈ totals, kv.1 ∈ traitTypeNames) →
    ∃ t', totals.foldlM (fun (t : Traits) kv => t.setE kv.1 (f kv)) t = .ok t' := by
  induction totals with
  | nil => intro t _; exact ⟨t, rfl⟩
  | cons hd tl ih =>
    intro t h
    obtain ⟨t1, ht1⟩ := traits_setE_ok t hd.1 (f hd) (h hd (List.mem_cons_self _ _))
    obtain ⟨t', ht'⟩ := ih t1 (fun kv hkv => h kv (List.mem_cons_of_mem _ hkv))
    exact ⟨t', by simp [List.foldlM, ht1, ht', Except.instMonad, Except.bind]⟩

theorem interests_foldl_setE_ok (totals : List (String × ℚ)) (f : String × ℚ → ℚ) :
    ∀ t : Interests, (∀ kv ∈ totals, kv.1 ∈ interestTypeNames) →
    ∃ t', totals.foldlM (fun (t : Interests) kv => t.setE kv.1 (f kv)) t = .ok t' := by
  induction totals with
  | nil => intro t _; exact ⟨t, rfl⟩
  | cons hd tl ih =>
    intro t h
    obtain ⟨t1, ht1⟩ := interests_setE_ok t hd.1 (f hd) (h hd (List.mem_cons_self _ _))
    obtain ⟨t', ht'⟩ := ih t1 (fun kv hkv => h kv (List.mem_cons_of_mem _ hkv))
    exact ⟨t', by simp [List.foldlM, ht1, ht', Except.instMonad, Except.bind]⟩

theorem aptitudes_foldl_setE_ok (totals : List (String × ℚ)) (f : String × ℚ → ℚ) :
    ∀ t : Aptitudes, (∀ kv ∈ totals, kv.1 ∈ aptitudeTypeNames) →
    ∃ t', totals.foldlM (fun (t : Aptitudes) kv => t.setE kv.1 (f kv)) t = .ok t' := by
  induction totals with
  | nil => intro t _; exact ⟨t, rfl⟩
  | cons hd tl ih =>
    intro t h
    obtain ⟨t1, ht1⟩ := aptitudes_setE_ok t hd.1 (f hd) (h hd (List.mem_cons_self _ _))
    obtain ⟨t', ht'⟩ := ih t1 (fun kv hkv => h kv (List.mem_cons_of_mem _ hkv))
    exact ⟨t', by simp [List.foldlM, ht1, ht', Except.instMonad, Except.bind]⟩

theorem values_foldl_setE_ok (totals : List (String × ℚ)) (f : String × ℚ → ℚ) :
    ∀ t : Values, (∀ kv ∈ totals, kv.1 ∈ valueTypeNames) →
    ∃ t', totals.foldlM (fun (t : Values) kv => t.setE kv.1 (f kv)) t = .ok t' := by
  induction totals with
  | nil => intro t _; exact ⟨t, rfl⟩
  | cons hd tl ih =>
    intro t h
    obtain ⟨t1, ht1⟩ := values_setE_ok t hd.1 (f hd) (h hd (List.mem_cons_self _ _))
    obtain ⟨t', ht'⟩ := ih t1 (fun kv hkv => h kv (List.mem_cons_of_mem _ hkv))
    exact ⟨t', by simp [List.foldlM, ht1, ht', Except.instMonad, Except.bind]⟩

theorem work_styles_foldl_setE_ok (totals : List (String × ℚ)) (f : String × ℚ → ℚ) :
    ∀ t : WorkStyles, (∀ kv ∈ totals, kv.1 ∈ workStyleTypeNames) →
    ∃ t', totals.foldlM (fun (t : WorkStyles) kv => t.setE kv.1 (f kv)) t = .ok t' := by
  induction totals with
  | nil => intro t _; exact ⟨t, rfl⟩
  | cons hd tl ih =>
    intro t h
    obtain ⟨t1, ht1⟩ := work_styles_setE_ok t hd.1 (f hd) (h hd (List.mem_cons_self _ _))
    obtain ⟨t', ht'⟩ := ih t1 (fun kv hkv => h kv (List.mem_cons_of_mem _ hkv))
    exact ⟨t', by simp [List.foldlM, ht1, ht', Except.instMonad, Except.bind]⟩

/-- `finalise` succeeds on any state whose totals keys are valid, and sets the
confidence to `min(total_answers / 20, 1)`. -/
theorem PsychState.finalise_ok (st : PsychState) (h : TotalsInv st) :
    ∃ fin : PsychState, st.finalise = .ok fin ∧
      fin.confidence = min ((st.total_answers : ℚ) / 20) 1 := by
  obtain ⟨h1, h2, h3, h4, h5⟩ := h
  obtain ⟨t1, ht1⟩ := traits_foldl_setE_ok st.trait_totals
    (fun kv => kv.2 / alGetD st.trait_counts kv.1 0) st.traits h1
  obtain ⟨t2, ht2⟩ := interests_foldl_setE_ok st.interest_totals
    (fun kv => kv.2 / alGetD st.interest_counts kv.1 0) st.interests h2
  obtain ⟨t3, ht3⟩ := aptitudes_foldl_setE_ok st.aptitude_totals
    (fun kv => kv.2 / alGetD st.aptitude_counts kv.1 0) st.aptitudes h3
  obtain ⟨t4, ht4⟩ := values_foldl_setE_ok st.value_totals
    (fun kv => kv.2 / alGetD st.value_counts kv.1 0) st.values h4
  obtain ⟨t5, ht5⟩ := work_styles_foldl_setE_ok st.work_style_totals
    (fun kv => kv.2 / alGetD st.work_style_counts kv.1 0) st.work_styles h5
  refine ⟨({ st with
      traits := t1, interests := t2, aptitudes := t3, values := t4, work_styles := t5,
      confidence := min ((st.total_answers : ℚ) / 20) 1 } : PsychState), ?_, rfl⟩
  simp [PsychState.finalise, ht1, ht2, ht3, ht4, ht5,
    Except.instMonad, Except.bind, Except.pure]

theorem validateAnswer_trait_target {a : Answer} (hok : validateAnswer a = .ok ())
    (hq : a.question_type = "trait") : a.target ∈ traitTypeNames := by
  by_contra hmem
  simp [validateAnswer, hq, hmem] at hok

theorem validateAnswer_interest_target {a : Answer} (hok : validateAnswer a = .ok ())
    (hq : a.question_type = "interest") : a.target ∈ interestTypeNames := by
  by_contra hmem
  simp [validateAnswer, hq, hmem] at hok

theorem validateAnswer_aptitude_target {a : Answer} (hok : validateAnswer a = .ok ())
    (hq : a.question_type = "aptitude") : a.target ∈ aptitudeTypeNames := by
  by_contra hmem
  simp [validateAnswer, hq, hmem] at hok

theorem validateAnswer_value_target {a : Answer} (hok : validateAnswer a = .ok ())
    (hq : a.question_type = "value") : a.target ∈ valueTypeNames := by
  by_contra hmem
  simp [validateAnswer, hq, hmem] at hok

theorem validateAnswer_work_style_target {a : Answer} (hok : validateAnswer a = .ok ())
    (hq : a.question_type = "work_style") : a.target ∈ workStyleTypeNames := by
  by_contra hmem
  simp [validateAnswer, hq, hmem] at hok

/-- One `add_answer` step: succeeds on a valid answer, increments the answer
counter, and preserves the totals-key invariant. -/
theorem PsychState.addAnswer_ok (st : PsychState) (a : Answer)
    (hok : validateAnswer a = .ok ()) (hinv : TotalsInv st) :
    ∃ st', st.addAnswer a = .ok st' ∧
      st'.total_answers = st.total_answers + 1 ∧ TotalsInv st' := by
  obtain ⟨i1, i2, i3, i4, i5⟩ := hinv
  refine ⟨st.addAnswerBody a, ?_, ?_, ?_⟩
  · simp [PsychState.addAnswer, hok, Except.instMonad, Except.bind, Except.pure]
  · by_cases h1 : a.question_type = "trait" <;>
      by_cases h2 : a.question_type = "interest" <;>
        by_cases h3 : a.question_type = "aptitude" <;>
          by_cases h4 : a.question_type = "value" <;>
            by_cases h5 : a.question_type = "work_style" <;>
              simp [PsychState.addAnswerBody, h1, h2, h3, h4, h5]
  · by_cases h1 : a.question_type = "trait"
    · have htgt := validateAnswer_trait_target hok h1
      have hbody : st.addAnswerBody a = { st with
          trait_totals := alSet st.trait_totals a.target (alGetD st.trait_totals a.target 0 + a.answer),
          trait_counts := alSet st.trait_counts a.target (alGetD st.trait_counts a.target 0 + 1),
          total_answers := st.total_answers + 1 } := by
        simp [PsychState.addAnswerBody, h1]
      rw [hbody]
      exact ⟨fun kv hkv => (alSet_mem _ _ _ kv hkv).elim
          (fun h => by rw [h]; exact htgt) (i1 kv), i2, i3, i4, i5⟩
    by_cases h2 : a.question_type = "interest"
    · have htgt := validateAnswer_interest_target hok h2
      have hbody : st.addAnswerBody a = { st with
          interest_totals := alSet st.interest_totals a.target (alGetD st.interest_totals a.target 0 + a.answer),
          interest_counts := alSet st.interest_counts a.target (alGetD st.interest_counts a.target 0 + 1),
          total_answers := st.total_answers + 1 } := by
        simp [PsychState.addAnswerBody, h1, h2]
      rw [hbody]
      exact ⟨i1, fun kv hkv => (alSet_mem _ _ _ kv hkv).elim
          (fun h => by rw [h]; exact htgt) (i2 kv), i3, i4, i5⟩
    by_cases h3 : a.question_type = "aptitude"
    · have htgt := validateAnswer_aptitude_target hok h3
      have hbody : st.addAnswerBody a = { st with
          aptitude_totals := alSet st.aptitude_totals a.target (alGetD st.aptitude_totals a.target 0 + a.answer),
          aptitude_counts := alSet st.aptitude_counts a.target (alGetD st.aptitude_counts a.target 0 + 1),
          total_answers := st.total_answers + 1 } := by
        simp [PsychState.addAnswerBody, h1, h2, h3]
      rw [hbody]
      exact ⟨i1, i2, fun kv hkv => (alSet_mem _ _ _ kv hkv).elim
          (fun h => by rw [h]; exact htgt) (i3 kv), i4, i5⟩
    by_cases h4 : a.question_type = "value"
    · have htgt := validateAnswer_value_target hok h4
      have hbody : st.addAnswerBody a = { st with
          value_totals := alSet st.value_totals a.target (alGetD st.value_totals a.target 0 + a.answer),
          value_counts := alSet st.value_counts a.target (alGetD st.value_counts a.target 0 + 1),
          total_answers := st.total_answers + 1 } := by
        simp [PsychState.addAnswerBody, h1, h2, h3, h4]
      rw [hbody]
      exact ⟨i1, i2, i3, fun kv hkv => (alSet_mem _ _ _ kv hkv).elim
          (fun h => by rw [h]; exact htgt) (i4 kv), i5⟩
    by_cases h5 : a.question_type = "work_style"
    · have htgt := validateAnswer_work_style_target hok h5
      have hbody : st.addAnswerBody a = { st with
          work_style_totals := alSet st.work_style_totals a.target (alGetD st.work_style_totals a.target 0 + a.answer),
          work_style_counts := alSet st.work_style_counts a.target (alGetD st.work_style_counts a.target 0 + 1),
          total_answers := st.total_answers + 1 } := by
        simp [PsychState.addAnswerBody, h1, h2, h3, h4, h5]
      rw [hbody]
      exact ⟨i1, i2, i3, i4, fun kv hkv => (alSet_mem _ _ _ kv hkv).elim
          (fun h => by rw [h]; exact htgt) (i5 kv)⟩
    · have hbody : st.addAnswerBody a = { st with total_answers := st.total_answers + 1 } := by
        simp [PsychState.addAnswerBody, h1, h2, h3, h4, h5]
      rw [hbody]
      exact ⟨i1, i2, i3, i4, i5⟩

/-- Folding `add_answer` over valid answers succeeds, counting every answer
and preserving the invariant. -/
theorem PsychState.addAll_ok (answers : List Answer) :
    ∀ st : PsychState, (∀ a ∈ answers, validateAnswer a = .ok ()) → TotalsInv st →
    ∃ st', answers.foldlM PsychState.addAnswer st = .ok st' ∧
      st'.total_answers = st.total_answers + answers.length ∧ TotalsInv st' := by
  induction answers with
  | nil => intro st _ hinv; exact ⟨st, rfl, by simp, hinv⟩
  | cons hd tl ih =>
    intro st hval hinv
    obtain ⟨st1, hst1, hc1, hinv1⟩ :=
      st.addAnswer_ok hd (hval hd (List.mem_cons_self _ _)) hinv
    obtain ⟨st', hst', hc', hinv'⟩ :=
      ih st1 (fun a ha => hval a (List.mem_cons_of_mem _ ha)) hinv1
    refine ⟨st', by simp [List.foldlM, hst1, hst', Except.instMonad, Except.bind], ?_, hinv'⟩
    rw [hc', hc1]
    simp [List.length_cons]
    omega

/-- C7 counterexample: one answered question (`"A1" = 5`) gives a profile with
confidence 0.0, while the claim's formula `min(1/20, 1.0)` is 1/20 ≠ 0. -/
theorem convert_answers_confidence_counterexample :
    convertAnswersToProfile [("A1", 5)] =
      .ok { aptitudes := { numerical_reasoning := 1 }, confidence := 0 } ∧
    min ((1 : ℚ)/20) 1 ≠ 0 := by
  constructor
  · simp [convertAnswersToProfile, bucketsOf, bucketsInit, QUESTION_MAPPING,
      alGet, alGetD, alSet, avgNormalized, clamp, List.find?,
      Aptitudes.initE, Aptitudes.setE, Interests.initE, Traits.initE,
      Values.initE, WorkStyles.initE, List.foldlM, Except.bind, Except.pure]
    norm_num
  · norm_num

/-- C7 amended: `convert_answers_to_profile` always returns a profile whose
confidence is the constructor's initial 0.0 (it never calls `finalise`); the
`min(count_of_answers / 20, 1.0)` confidence formula holds only on the
incremental `add_answer`/`finalise` pathway, where the count is the number of
added answers. -/
theorem person_profile_confidence :
    (∀ (answers : List (String × ℤ)) (p : PsychometricProfile),
      convertAnswersToProfile answers = .ok p → p.confidence = 0) ∧
    (∀ answers : List Answer,
      (∀ a ∈ answers, validateAnswer a = .ok ()) →
      ∃ st : PsychState,
        answers.foldlM PsychState.addAnswer {} = .ok st ∧
        st.total_answers = answers.length ∧
        ∃ fin : PsychState, st.finalise = .ok fin ∧
          fin.confidence = min ((answers.length : ℚ) / 20) 1) := by
  constructor
  · intro answers p h
    simp only [convertAnswersToProfile, bind, Except.bind, pure, Except.pure] at h
    repeat' split at h
    all_goals simp_all
    exact h.symm ▸ rfl
  · intro answers hval
    obtain ⟨st, hst, hcount, hinv⟩ := PsychState.addAll_ok answers {} hval
      ⟨by simp, by simp, by simp, by simp, by simp⟩
    have hcount' : st.total_answers = answers.length := by simpa using hcount
    obtain ⟨fin, hfin, hconf⟩ := st.finalise_ok hinv
    exact ⟨st, hst, hcount', fin, hfin, by rw [hconf, hcount']⟩

/-- Witness for C7's amended statement: the converter applied to one answered
question yields confidence 0, and the incremental pathway applied to one valid
answer yields confidence `min(1/20, 1)`. -/
theorem person_profile_confidence_witness :
    (∃ p, convertAnswersToProfile [("I1", 3)] = .ok p ∧ p.confidence = 0) ∧
    (∃ st : PsychState,
      [Answer.mk "trait" "creative" 4].foldlM PsychState.addAnswer {} = .ok st ∧
      st.total_answers = 1 ∧
      ∃ fin : PsychState, st.finalise = .ok fin ∧
        fin.confidence = min ((1 : ℚ) / 20) 1) := by
  constructor
  · have hconv : ∃ p, convertAnswersToProfile [("I1", 3)] = .ok p := by
      refine ⟨?_, ?_⟩
      · exact { interests := { technology := clamp (3/5) }, confidence := 0 }
      · simp [convertAnswersToProfile, bucketsOf, bucketsInit, QUESTION_MAPPING,
          alGet, alGetD, alSet, avgNormalized, List.find?,
          Aptitudes.initE, Interests.initE, Interests.setE, Traits.initE,
          Values.initE, WorkStyles.initE, List.foldlM, Except.bind, Except.pure]
        norm_num [clamp]
    obtain ⟨p, hp⟩ := hconv
    exact ⟨p, hp, person_profile_confidence.1 [("I1", 3)] p hp⟩
  · have h := person_profile_confidence.2 [Answer.mk "trait" "creative" 4]
      (by intro a ha; simp at ha; subst ha; rfl)
    simpa using h

/-! ## Ingestion rows and the abilities / work-activities builders

A reference-data row carries an occupation code, an element name, a scale
identifier, and a raw value cell; a cell that `float(...)` rejects is `none`.
`build_aptitudes_from_abilities` (lines 63-103) and
`build_traits_from_work_activities` (lines 185-222) have no scale filter:
the accumulator is `defaultdict(lambda: defaultdict(lambda: {"LV": [], "IM": []}))`,
whose innermost object is a plain dict with exactly the keys `"LV"` and
`"IM"`, so `data[soc][name][scale_id].append(...)` on a row with a mapped
element and any other scale that `normalise` accepts raises an uncaught
`KeyError` (the `try` around it catches only `normalise`'s `ValueError`).
The bucket lookup is therefore embedded as fallible.
-/

structure Row where
  soc : String
  element_name : String
  scale_id : String
  data_value : Option ℚ
deriving DecidableEq, Repr

/-- `ABILITY_MAP` (`src/data/onet/mappings.py`). -/
def ABILITY_MAP : String → Option (String × ℚ)
  | "Deductive Reasoning" => some ("logical_reasoning", 1)
  | "Inductive Reasoning" => some ("logical_reasoning", 1)
  | "Number Facility" => some ("numerical_reasoning", 1)
  | "Mathematical Reasoning" => some ("numerical_reasoning", 9/10)
  | "Verbal Reasoning" => some ("verbal_reasoning", 1)
  | "Written Comprehension" => some ("verbal_reasoning", 8/10)
  | "Oral Comprehension" => some ("verbal_reasoning", 8/10)
  | "Spatial Orientation" => some ("spatial_reasoning", 1)
  | "Visualization" => some ("spatial_reasoning", 9/10)
  | "Memorization" => some ("memory", 1)
  | _ => none

/-- `WORK_ACTIVITY_MAP` (`src/data/onet/mappings.py`). Note that two of its
internal names — `technical_interaction` and `communication` — are not in the
`Traits` fixed dimension set. -/
def WORK_ACTIVITY_MAP : String → Option (String × ℚ)
  | "Analyzing Data or Information" => some ("analytical", 1)
  | "Thinking Creatively" => some ("creative", 1)
  | "Interacting With Computers" => some ("technical_interaction", 1)
  | "Communicating with Supervisors, Peers, or Subordinates" => some ("communication", 1)
  | "Guiding, Directing, and Motivating Subordinates" => some ("leadership", 1)
  | _ => none

/-- The `defaultdict(lambda: {"LV": [], "IM": []})` initial buckets. -/
def scaleBucketsInit : List (String × List ℚ) := [("LV", []), ("IM", [])]

/-- The row loop shared by the abilities and work-activities builders:
skip an unmapped element, skip a row whose `normalise` call raises
(unknown scale or unparsable value), then append the weighted value to
`data[soc][internal_name][scale_id]` — an indexing of the innermost plain
`{"LV": [], "IM": []}` dict, which raises `KeyError` for every other scale
identifier. -/
def buildScaleData (dimMap : String → Option (String × ℚ)) (rows : List Row) :
    Except String (List (String × List (String × List (String × List ℚ)))) :=
  rows.foldlM (fun data row =>
    match dimMap row.element_name with
    | none => .ok data
    | some nw =>
      match normaliseStr row.scale_id row.data_value with
      | none => .ok data
      | some value =>
        let inner := alGetD data row.soc []
        let buckets := alGetD inner nw.1 scaleBucketsInit
        match alGet buckets row.scale_id with
        | none => .error ("KeyError: " ++ row.scale_id)
        | some bucket =>
          .ok (alSet data row.soc
            (alSet inner nw.1 (alSet buckets row.scale_id (bucket ++ [value * nw.2]))))) []

/-- `sum(xs)/len(xs) if xs else 0.0`. -/
def meanOrZero (l : List ℚ) : ℚ := if l.isEmpty then 0 else l.sum / l.length

/-- `build_aptitudes_from_abilities`: run the row loop, then aggregate each
dimension's LV and IM bucket means with the 0.6/0.4 blend and build an
`Aptitudes` per occupation. -/
def buildAptitudesFromAbilities (rows : List Row) :
    Except String (List (String × Aptitudes)) := do
  let data ← buildScaleData ABILITY_MAP rows
  data.foldlM (fun acc p => do
    let aggregated := p.2.map (fun nb =>
      (nb.1, meanOrZero (alGetD nb.2 "LV" []) * (6/10) + meanOrZero (alGetD nb.2 "IM" []) * (4/10)))
    let apt ← Aptitudes.initE aggregated
    return alSet acc p.1 apt) []

/-- `build_traits_from_work_activities`: same loop with the work-activities
mapping and the inverse 0.4/0.6 blend, building a `Traits` per occupation. -/
def buildTraitsFromWorkActivities (rows : List Row) :
    Except String (List (String × Traits)) := do
  let data ← buildScaleData WORK_ACTIVITY_MAP rows
  data.foldlM (fun acc p => do
    let aggregated := p.2.map (fun nb =>
      (nb.1, meanOrZero (alGetD nb.2 "LV" []) * (4/10) + meanOrZero (alGetD nb.2 "IM" []) * (6/10)))
    let tr ← Traits.initE aggregated
    return alSet acc p.1 tr) []

/-- C4 (code bug): profile building is not raise-free and the two cited
builders do not skip irrelevant-scale rows — they crash on them.
(1) A well-formed work-activities row for "Interacting With Computers" maps
to the internal name `technical_interaction`, outside the `Traits` fixed
dimension set, so `Traits(aggregated)` raises `ValueError`.
(2) In the abilities builder a row with a mapped element and the irrelevant
(but `normalise`-accepted) scale OI is not skipped: indexing the innermost
plain `{"LV": [], "IM": []}` dict with `"OI"` raises an uncaught `KeyError`.
(3) A well-formed LV row is processed normally, for contrast. -/
theorem ingestion_builders_raise_and_do_not_skip :
    buildTraitsFromWorkActivities
      [{ soc := "11-1011.00", element_name := "Interacting With Computers",
         scale_id := "LV", data_value := some (7/2) }] =
      .error "Invalid trait: technical_interaction" ∧
    buildAptitudesFromAbilities
      [{ soc := "11-1011.00", element_name := "Deductive Reasoning",
         scale_id := "OI", data_value := some 4 }] =
      .error "KeyError: OI" ∧
    buildAptitudesFromAbilities
      [{ soc := "11-1011.00", element_name := "Deductive Reasoning",
         scale_id := "LV", data_value := some (7/2) }] =
      .ok [("11-1011.00", { logical_reasoning := 3/10 })] := by
  refine ⟨?_, ?_, ?_⟩
  · simp [buildTraitsFromWorkActivities, buildScaleData, WORK_ACTIVITY_MAP,
      normaliseStr, parseScale, normalise, scaleBucketsInit, alGet, alGetD, alSet,
      meanOrZero, Traits.initE, Traits.setE, List.foldl, List.foldlM, List.find?,
      Except.instMonad, Except.bind, Except.pure]
  · simp [buildAptitudesFromAbilities, buildScaleData, ABILITY_MAP,
      normaliseStr, parseScale, normalise, scaleBucketsInit, alGet, alGetD, alSet,
      meanOrZero, Aptitudes.initE, Aptitudes.setE, clamp, List.foldl, List.foldlM,
      List.find?, Except.instMonad, Except.bind, Except.pure]
  · simp [buildAptitudesFromAbilities, buildScaleData, ABILITY_MAP,
      normaliseStr, parseScale, normalise, scaleBucketsInit, alGet, alGetD, alSet,
      meanOrZero, Aptitudes.initE, Aptitudes.setE, clamp, List.foldl, List.foldlM,
      List.find?, Except.instMonad, Except.bind, Except.pure]
    norm_num

/-! ## Values builder (`build_values_from_work_values`, lines 225-301)

The logic is fully present in the source; the `WORK_VALUE_MAP` dimension
table it reads is imported from `data.onet.mappings`, which does not define
it among the sources here, so — modelled from the spec — the table is a
parameter `wvMap` (spec §2: a static table per reference-data category from
element name to internal dimension name and contribution weight); the C5
theorem holds for every table whose internal names are valid `Values`
dimensions.
-/

/-- `VH_VALUE_MAP` (build_career_profiles.py, lines 27-34). -/
def VH_VALUE_MAP (code : ℤ) : Option String :=
  if code = 1 then some "Achievement"
  else if code = 2 then some "Working Conditions"
  else if code = 3 then some "Recognition"
  else if code = 4 then some "Relationships"
  else if code = 5 then some "Support"
  else if code = 6 then some "Independence"
  else none

/-- Python `int(...)` on a float: truncation toward zero. -/
def pyInt (q : ℚ) : ℤ := if 0 ≤ q then ⌊q⌋ else ⌈q⌉

/-- The two accumulators of the row loop: `ex_scores_by_soc` and
`vh_hits_by_soc` (the hit set is modelled as an insertion-ordered
duplicate-free list; only membership and emptiness are ever read). -/
structure WVState where
  ex_scores : List (String × List (String × ℚ)) := []
  vh_hits : List (String × List String) := []
deriving DecidableEq, Repr

/-- One row of the work-values loop: an EX row with a mapped element and a
parsable value overwrites `ex_scores[soc][name]` with the weighted normalised
magnitude; a VH row with a parsable value whose truncated code is a nonzero
key of `VH_VALUE_MAP` naming a mapped element adds the mapped name to the
occupation's top-3 hit set; every other row is skipped. -/
def wvStep (wvMap : String → Option (String × ℚ)) (st : WVState) (row : Row) : WVState :=
  if row.scale_id == "EX" then
    match wvMap row.element_name with
    | none => st
    | some nw =>
      match row.data_value with
      | none => st
      | some raw =>
        let inner := alSet (alGetD st.ex_scores row.soc []) nw.1 (normalise .EX raw * nw.2)
        { st with ex_scores := alSet st.ex_scores row.soc inner }
  else if row.scale_id == "VH" then
    match row.data_value with
    | none => st
    | some raw =>
      let vh_code := pyInt raw
      if vh_code = 0 then st
      else
        match VH_VALUE_MAP vh_code with
        | none => st
        | some value_element =>
          match wvMap value_element with
          | none => st
          | some nw =>
            let cur := alGetD st.vh_hits row.soc []
            let upd := if cur.contains nw.1 then cur else cur ++ [nw.1]
            { st with vh_hits := alSet st.vh_hits row.soc upd }
  else st

/-- The combine phase for one occupation: keep an EX magnitude only when the
occupation has no top-3 hits at all or the dimension is one of the hits;
otherwise force 0.0 — then hand the dict to the validating/clamping `Values`
constructor. -/
def combineValuesEntry (hits : List String) (inner : List (String × ℚ)) :
    Except String Values :=
  let has_vh := !hits.isEmpty
  Values.initE (inner.map (fun nv =>
    if has_vh then (nv.1, if hits.contains nv.1 then nv.2 else 0) else (nv.1, nv.2)))

/-- `build_values_from_work_values`: run the row loop, then combine per
occupation in `ex_scores` insertion order. -/
def buildValuesFromWorkValues (wvMap : String → Option (String × ℚ))
    (rows : List Row) : Except String (List (String × Values)) :=
  let st := rows.foldl (wvStep wvMap) {}
  st.ex_scores.foldlM (fun acc p => do
    let vals ← combineValuesEntry (alGetD st.vh_hits p.1 []) p.2
    return alSet acc p.1 vals) []

/-! ### Reference functions for C5, recursions independent of the builder -/

/-- The mapped name and raw value of a row the EX branch accepts, if any. -/
def exRelevant (wvMap : String → Option (String × ℚ)) (r : Row) :
    Option ((String × ℚ) × ℚ) :=
  if r.scale_id == "EX" then
    match wvMap r.element_name, r.data_value with
    | some nw, some raw => some (nw, raw)
    | _, _ => none
  else none

/-- The value-dimension name a row marks as top-3, if the VH branch accepts
it (the EX branch is checked first, so an EX row never reaches it). -/
def vhRelevant (wvMap : String → Option (String × ℚ)) (r : Row) : Option String :=
  if r.scale_id == "EX" then none
  else if r.scale_id == "VH" then
    match r.data_value with
    | none => none
    | some raw =>
      if pyInt raw = 0 then none
      else
        match VH_VALUE_MAP (pyInt raw) with
        | none => none
        | some elem =>
          match wvMap elem with
          | none => none
          | some nw => some nw.1
  else none

/-- The weighted magnitude an EX row contributes to `(soc, dim)`, if any. -/
def rowExContribution (wvMap : String → Option (String × ℚ)) (r : Row)
    (soc dim : String) : Option ℚ :=
  if r.soc = soc then
    match exRelevant wvMap r with
    | some nwraw => if nwraw.1.1 = dim then some (normalise .EX nwraw.2 * nwraw.1.2) else none
    | none => none
  else none

/-- The stored EX magnitude for `(soc, dim)`: the last contributing row wins. -/
def exMag (wvMap : String → Option (String × ℚ)) (rows : List Row)
    (soc dim : String) : Option ℚ :=
  rows.foldl (fun acc r =>
    match rowExContribution wvMap r soc dim with
    | some v => some v
    | none => acc) none

/-- The value dimension a VH row marks as top-3 for `soc`, if any. -/
def rowVHHit (wvMap : String → Option (String × ℚ)) (r : Row) (soc : String) :
    Option String :=
  if r.soc = soc then vhRelevant wvMap r else none

/-- Whether `soc` has at least one top-3 indicator among the rows. -/
def hasVH (wvMap : String → Option (String × ℚ)) (rows : List Row)
    (soc : String) : Bool :=
  rows.any (fun r => (rowVHHit wvMap r soc).isSome)

/-- Whether `dim` is one of `soc`'s indicated top-3 dimensions. -/
def isVHHit (wvMap : String → Option (String × ℚ)) (rows : List Row)
    (soc dim : String) : Bool :=
  rows.any (fun r => rowVHHit wvMap r soc == some dim)

/-! ### Association-list lemmas for C5 -/

theorem alGet_nil {β : Type} (k : String) : alGet ([] : List (String × β)) k = none := rfl

theorem alGet_cons {β : Type} (k' : String) (v' : β) (l : List (String × β)) (k : String) :
    alGet ((k', v') :: l) k = if k' == k then some v' else alGet l k := by
  by_cases h : k' == k <;> simp [alGet, List.find?, h]

theorem alGet_alSet_self {β : Type} (l : List (String × β)) (k : String) (v : β) :
    alGet (alSet l k v) k = some v := by
  induction l with
  | nil => simp [alSet, alGet, List.find?]
  | cons hd tl ih =>
    by_cases h : hd.1 == k
    · simp [alSet, h, alGet, List.find?]
    · unfold alSet
      rw [if_neg h]
      rw [show ((hd.1, hd.2) : String × β) = hd from rfl] at *
      rw [show (hd :: alSet tl k v) = (hd.1, hd.2) :: alSet tl k v by rfl, alGet_cons, if_neg h]
      exact ih

theorem alGet_alSet_ne {β : Type} (l : List (String × β)) (k k' : String) (v : β)
    (h : k' ≠ k) : alGet (alSet l k v) k' = alGet l k' := by
  induction l with
  | nil =>
    have h1 : (k == k') = false := by
      simp only [beq_eq_false_iff_ne, ne_eq]
      exact fun he => h he.symm
    simp [alSet, alGet, List.find?, h1]
  | cons hd tl ih =>
    by_cases hh : hd.1 == k
    · unfold alSet
      rw [if_pos hh]
      rw [show (((k, v) : String × β) :: tl) = (k, v) :: tl from rfl, alGet_cons,
        show (hd :: tl) = (hd.1, hd.2) :: tl from rfl, alGet_cons]
      have h1 : (k == k') = false := by simpa using fun he => h he.symm
      have h2 : (hd.1 == k') = false := by
        have he : hd.1 = k := by simpa using hh
        simpa [he] using fun he' => h he'.symm
      rw [h1, h2]
      simp
    · unfold alSet
      rw [if_neg hh]
      rw [show (hd :: alSet tl k v) = (hd.1, hd.2) :: alSet tl k v from rfl, alGet_cons,
        show (hd :: tl) = (hd.1, hd.2) :: tl from rfl, alGet_cons]
      by_cases hk : hd.1 == k'
      · simp [hk]
      · simp [hk, ih]

theorem alGet_eq_none_of_forall_ne {β : Type} (l : List (String × β)) (k : String)
    (h : ∀ kv ∈ l, kv.1 ≠ k) : alGet l k = none := by
  induction l with
  | nil => rfl
  | cons hd tl ih =>
    rw [show (hd :: tl) = (hd.1, hd.2) :: tl from rfl, alGet_cons]
    have h1 : (hd.1 == k) = false := by
      simpa using h hd (List.mem_cons_self _ _)
    rw [h1]
    simp only [Bool.false_eq_true, if_false]
    exact ih (fun kv hkv => h kv (List.mem_cons_of_mem _ hkv))

/-- Pairwise-distinct keys, the shape every Python dict model has. -/
def KeysUnique {β : Type} (l : List (String × β)) : Prop :=
  l.Pairwise (fun a b => a.1 ≠ b.1)

theorem keysUnique_nil {β : Type} : KeysUnique ([] : List (String × β)) := List.Pairwise.nil

theorem alSet_keysUnique {β : Type} (l : List (String × β)) (k : String) (v : β)
    (h : KeysUnique l) : KeysUnique (alSet l k v) := by
  induction l with
  | nil => simp [alSet, KeysUnique]
  | cons hd tl ih =>
    rcases List.pairwise_cons.mp h with ⟨hhd, htl⟩
    by_cases hh : hd.1 == k
    · unfold alSet
      rw [if_pos hh]
      refine List.pairwise_cons.mpr ⟨?_, htl⟩
      have he : hd.1 = k := by simpa using hh
      simpa [he] using hhd
    · unfold alSet
      rw [if_neg hh]
      refine List.pairwise_cons.mpr ⟨?_, ih htl⟩
      intro b hb
      rcases alSet_mem tl k v b hb with h1 | h1
      · rw [h1]; simpa using hh
      · exact hhd b h1

theorem alGet_map_valued {β : Type} (l : List (String × ℚ)) (g : String → ℚ → β) (k : String) :
    alGet (l.map (fun kv => (kv.1, g kv.1 kv.2))) k = (alGet l k).map (g k) := by
  induction l with
  | nil => rfl
  | cons hd tl ih =>
    rw [List.map_cons]
    rw [show ((hd.1, g hd.1 hd.2) :: tl.map (fun kv => (kv.1, g kv.1 kv.2)))
        = (hd.1, g hd.1 hd.2) :: tl.map (fun kv => (kv.1, g kv.1 kv.2)) from rfl, alGet_cons,
      show (hd :: tl) = (hd.1, hd.2) :: tl from rfl, alGet_cons]
    by_cases hk : hd.1 == k
    · have he : hd.1 = k := by simpa using hk
      simp [hk, he]
    · simp [hk, ih]

/-! ### Characterising the work-values row loop -/

theorem wvStep_ex_eq (wvMap : String → Option (String × ℚ)) (st : WVState) (r : Row) :
    (wvStep wvMap st r).ex_scores =
      match exRelevant wvMap r with
      | some nwraw => alSet st.ex_scores r.soc
          (alSet (alGetD st.ex_scores r.soc []) nwraw.1.1 (normalise .EX nwraw.2 * nwraw.1.2))
      | none => st.ex_scores := by
  unfold wvStep exRelevant
  by_cases h1 : r.scale_id == "EX"
  · rw [if_pos h1, if_pos h1]
    rcases hmap : wvMap r.element_name with _ | nw
    · simp [hmap]
    · rcases hval : r.data_value with _ | raw
      · simp [hmap, hval]
      · simp [hmap, hval]
  · rw [if_neg h1, if_neg h1]
    by_cases h2 : r.scale_id == "VH"
    · rw [if_pos h2]
      rcases hval : r.data_value with _ | raw
      · rfl
      · simp only []
        by_cases h3 : pyInt raw = 0
        · rw [if_pos h3]
        · rw [if_neg h3]
          rcases hvh : VH_VALUE_MAP (pyInt raw) with _ | elem
          · rfl
          · rcases hm : wvMap elem with _ | nw <;> simp [hm]
    · rw [if_neg h2]

theorem wvStep_hits_eq (wvMap : String → Option (String × ℚ)) (st : WVState) (r : Row) :
    (wvStep wvMap st r).vh_hits =
      match vhRelevant wvMap r with
      | some n =>
          alSet st.vh_hits r.soc
            (if (alGetD st.vh_hits r.soc []).contains n then alGetD st.vh_hits r.soc []
             else alGetD st.vh_hits r.soc [] ++ [n])
      | none => st.vh_hits := by
  unfold wvStep vhRelevant
  by_cases h1 : r.scale_id == "EX"
  · rw [if_pos h1, if_pos h1]
    rcases hmap : wvMap r.element_name with _ | nw
    · rfl
    · rcases hval : r.data_value with _ | raw
      · simp [hmap, hval]
      · simp [hmap, hval]
  · rw [if_neg h1, if_neg h1]
    by_cases h2 : r.scale_id == "VH"
    · rw [if_pos h2, if_pos h2]
      rcases hval : r.data_value with _ | raw
      · rfl
      · simp only []
        by_cases h3 : pyInt raw = 0
        · rw [if_pos h3, if_pos h3]
        · rw [if_neg h3, if_neg h3]
          rcases hvh : VH_VALUE_MAP (pyInt raw) with _ | elem
          · rfl
          · rcases hm : wvMap elem with _ | nw <;> simp [hm]
    · rw [if_neg h2, if_neg h2]

/-- The EX accumulator after the loop holds, per `(soc, dim)`, exactly the
last EX contribution among the rows. -/
theorem wv_ex_lookup (wvMap : String → Option (String × ℚ)) (rows : List Row) :
    ∀ soc dim,
      alGet (alGetD ((rows.foldl (wvStep wvMap) {}).ex_scores) soc []) dim =
        exMag wvMap rows soc dim := by
  induction rows using List.reverseRecOn with
  | nil => intro soc dim; rfl
  | append_singleton rows r ih =>
    intro soc dim
    rw [List.foldl_append, List.foldl_cons, List.foldl_nil]
    have hexm : exMag wvMap (rows ++ [r]) soc dim =
        (match rowExContribution wvMap r soc dim with
         | some v => some v
         | none => exMag wvMap rows soc dim) := by
      unfold exMag
      rw [List.foldl_append, List.foldl_cons, List.foldl_nil]
    rw [hexm, wvStep_ex_eq]
    rcases hrel : exRelevant wvMap r with _ | nwraw
    · have hc : rowExContribution wvMap r soc dim = none := by
        unfold rowExContribution
        rw [hrel]
        by_cases hsoc : r.soc = soc <;> simp [hsoc]
      rw [hc]
      exact ih soc dim
    · by_cases hsoc : r.soc = soc
      · subst hsoc
        rw [alGetD, alGet_alSet_self]
        simp only [Option.getD_some]
        by_cases hdim : nwraw.1.1 = dim
        · rw [hdim, alGet_alSet_self]
          have hc : rowExContribution wvMap r r.soc dim =
              some (normalise .EX nwraw.2 * nwraw.1.2) := by
            unfold rowExContribution
            rw [hrel]
            simp [hdim]
          rw [hc]
        · rw [alGet_alSet_ne _ _ _ _ (fun he => hdim he.symm)]
          have hc : rowExContribution wvMap r r.soc dim = none := by
            unfold rowExContribution
            rw [hrel]
            simp [hdim]
          rw [hc]
          exact ih r.soc dim
      · rw [alGetD, alGet_alSet_ne _ _ _ _ (fun he => hsoc he.symm)]
        have hc : rowExContribution wvMap r soc dim = none := by
          unfold rowExContribution
          rw [if_neg hsoc]
        rw [hc]
        exact ih soc dim

theorem alSet_mem_strong {β : Type} (l : List (String × β)) (k : String) (v : β) :
    ∀ kv ∈ alSet l k v, kv = (k, v) ∨ kv ∈ l := by
  induction l with
  | nil =>
    intro kv hkv
    simp [alSet] at hkv
    exact Or.inl hkv
  | cons hd tl ih =>
    intro kv hkv
    unfold alSet at hkv
    by_cases hk : hd.1 == k
    · rw [if_pos hk] at hkv
      rcases List.mem_cons.mp hkv with h | h
      · exact Or.inl h
      · exact Or.inr (List.mem_cons_of_mem _ h)
    · rw [if_neg hk] at hkv
      rcases List.mem_cons.mp hkv with h | h
      · subst h; exact Or.inr (List.mem_cons_self _ _)
      · rcases ih kv h with h' | h'
        · exact Or.inl h'
        · exact Or.inr (List.mem_cons_of_mem _ h')

theorem alGet_mem {β : Type} (l : List (String × β)) (k : String) (v : β)
    (h : alGet l k = some v) : (k, v) ∈ l := by
  induction l with
  | nil => simp [alGet, List.find?] at h
  | cons hd tl ih =>
    rw [show (hd :: tl) = (hd.1, hd.2) :: tl from rfl, alGet_cons] at h
    by_cases hk : hd.1 == k
    · rw [if_pos hk] at h
      have he : hd.1 = k := by simpa using hk
      have hv : hd.2 = v := by simpa using h
      have : hd = (k, v) := by
        rw [← he, ← hv]
      rw [this] at *
      exact List.mem_cons_self _ _
    · rw [if_neg hk] at h
      exact List.mem_cons_of_mem _ (ih h)

theorem exRelevant_map_eq {wvMap : String → Option (String × ℚ)} {r : Row}
    {nwraw : (String × ℚ) × ℚ} (h : exRelevant wvMap r = some nwraw) :
    wvMap r.element_name = some nwraw.1 := by
  unfold exRelevant at h
  by_cases h1 : r.scale_id == "EX"
  · rw [if_pos h1] at h
    rcases hmap : wvMap r.element_name with _ | nw <;> rw [hmap] at h
    · rcases hval : r.data_value with _ | raw <;> rw [hval] at h <;> cases h
    · rcases hval : r.data_value with _ | raw <;> rw [hval] at h
      · cases h
      · cases h
        rfl
  · rw [if_neg h1] at h
    cases h

/-- The top-3 hit list after the loop: membership coincides with `isVHHit`. -/
theorem wv_hits_contains (wvMap : String → Option (String × ℚ)) (rows : List Row) :
    ∀ soc dim,
      ((alGetD ((rows.foldl (wvStep wvMap) {}).vh_hits) soc []).contains dim) =
        isVHHit wvMap rows soc dim := by
  induction rows using List.reverseRecOn with
  | nil => intro soc dim; rfl
  | append_singleton rows r ih =>
    intro soc dim
    rw [List.foldl_append, List.foldl_cons, List.foldl_nil]
    have hrhs : isVHHit wvMap (rows ++ [r]) soc dim =
        (isVHHit wvMap rows soc dim || (rowVHHit wvMap r soc == some dim)) := by
      unfold isVHHit
      rw [List.any_append, List.any_cons, List.any_nil, Bool.or_false]
    rw [hrhs, wvStep_hits_eq]
    rcases hrel : vhRelevant wvMap r with _ | n
    · have hrow : rowVHHit wvMap r soc = none := by
        unfold rowVHHit
        rw [hrel]
        by_cases hsoc : r.soc = soc <;> simp [hsoc]
      rw [hrow, ih]
      simp
    · by_cases hsoc : r.soc = soc
      · subst hsoc
        have hrow : rowVHHit wvMap r r.soc = some n := by
          unfold rowVHHit
          rw [hrel, if_pos rfl]
        rw [hrow, alGetD, alGet_alSet_self, Option.getD_some]
        by_cases hcn : (alGetD ((rows.foldl (wvStep wvMap) {}).vh_hits) r.soc []).contains n
        · rw [if_pos hcn, ih]
          by_cases hnd : n = dim
          · subst hnd
            have htrue : isVHHit wvMap rows r.soc n = true := by rw [← ih]; exact hcn
            simp [htrue]
          · have : (some n == some dim) = false := by simpa using hnd
            rw [this, Bool.or_false]
        · rw [if_neg hcn]
          have hca : ((alGetD ((rows.foldl (wvStep wvMap) {}).vh_hits) r.soc []) ++ [n]).contains dim
              = (((alGetD ((rows.foldl (wvStep wvMap) {}).vh_hits) r.soc []).contains dim) || (n == dim)) := by
            by_cases hnd : n = dim
            · subst hnd
              simp [List.contains_eq_any_beq, List.any_append]
            · have h1 : (dim == n) = false := by
                simp only [beq_eq_false_iff_ne, ne_eq]
                exact fun he => hnd he.symm
              have h2 : (n == dim) = false := by simpa using hnd
              simp [List.contains_eq_any_beq, List.any_append, h1, h2]
              exact fun he => absurd he.symm hnd
          rw [hca, ih]
          have : (some n == some dim) = (n == dim) := by simp
          rw [this]
      · have hrow : rowVHHit wvMap r soc = none := by
          unfold rowVHHit
          rw [hrel, if_neg hsoc]
        rw [hrow, alGetD, alGet_alSet_ne _ _ _ _ (fun he => hsoc he.symm), ← alGetD, ih]
        simp

/-- Whether the hit list is nonempty coincides with `hasVH`. -/
theorem wv_hits_nonempty (wvMap : String → Option (String × ℚ)) (rows : List Row) :
    ∀ soc,
      (!(alGetD ((rows.foldl (wvStep wvMap) {}).vh_hits) soc []).isEmpty) =
        hasVH wvMap rows soc := by
  induction rows using List.reverseRecOn with
  | nil => intro soc; rfl
  | append_singleton rows r ih =>
    intro soc
    rw [List.foldl_append, List.foldl_cons, List.foldl_nil]
    have hrhs : hasVH wvMap (rows ++ [r]) soc =
        (hasVH wvMap rows soc || (rowVHHit wvMap r soc).isSome) := by
      unfold hasVH
      rw [List.any_append, List.any_cons, List.any_nil, Bool.or_false]
    rw [hrhs, wvStep_hits_eq]
    rcases hrel : vhRelevant wvMap r with _ | n
    · have hrow : rowVHHit wvMap r soc = none := by
        unfold rowVHHit
        rw [hrel]
        by_cases hsoc : r.soc = soc <;> simp [hsoc]
      rw [hrow, ih]
      simp
    · by_cases hsoc : r.soc = soc
      · subst hsoc
        have hrow : rowVHHit wvMap r r.soc = some n := by
          unfold rowVHHit
          rw [hrel, if_pos rfl]
        rw [hrow, alGetD, alGet_alSet_self, Option.getD_some]
        by_cases hcn : (alGetD ((rows.foldl (wvStep wvMap) {}).vh_hits) r.soc []).contains n
        · rw [if_pos hcn]
          have hne : (alGetD ((rows.foldl (wvStep wvMap) {}).vh_hits) r.soc []).isEmpty = false := by
            rcases h : (alGetD ((rows.foldl (wvStep wvMap) {}).vh_hits) r.soc []) with _ | ⟨hd, tl⟩
            · rw [h] at hcn; simp [List.contains] at hcn
            · rfl
          simp [hne]
        · rw [if_neg hcn]
          simp
      · have hrow : rowVHHit wvMap r soc = none := by
          unfold rowVHHit
          rw [hrel, if_neg hsoc]
        rw [hrow, alGetD, alGet_alSet_ne _ _ _ _ (fun he => hsoc he.symm), ← alGetD, ih]
        simp

/-- The EX accumulator keeps unique occupation keys, unique dimension keys per
occupation, and (for a table whose internal names are valid) only valid
dimension names. -/
theorem wv_ex_invariants (wvMap : String → Option (String × ℚ))
    (hvalid : ∀ e n w, wvMap e = some (n, w) → n ∈ valueTypeNames) (rows : List Row) :
    KeysUnique ((rows.foldl (wvStep wvMap) {}).ex_scores) ∧
    (∀ p ∈ (rows.foldl (wvStep wvMap) {}).ex_scores,
      KeysUnique p.2 ∧ ∀ kv ∈ p.2, kv.1 ∈ valueTypeNames) := by
  induction rows using List.reverseRecOn with
  | nil => exact ⟨keysUnique_nil, by simp⟩
  | append_singleton rows r ih =>
    obtain ⟨ihu, ihm⟩ := ih
    rw [List.foldl_append, List.foldl_cons, List.foldl_nil]
    rw [show ∀ st : WVState, (wvStep wvMap st r).ex_scores =
        (match exRelevant wvMap r with
         | some nwraw => alSet st.ex_scores r.soc
             (alSet (alGetD st.ex_scores r.soc []) nwraw.1.1 (normalise .EX nwraw.2 * nwraw.1.2))
         | none => st.ex_scores) from fun st => wvStep_ex_eq wvMap st r]
    rcases hrel : exRelevant wvMap r with _ | nwraw
    · exact ⟨ihu, ihm⟩
    · have hname : nwraw.1.1 ∈ valueTypeNames :=
        hvalid r.element_name nwraw.1.1 nwraw.1.2
          (by simpa using exRelevant_map_eq hrel)
      have hinner : KeysUnique (alGetD ((rows.foldl (wvStep wvMap) {}).ex_scores) r.soc []) ∧
          (∀ kv ∈ alGetD ((rows.foldl (wvStep wvMap) {}).ex_scores) r.soc [],
            kv.1 ∈ valueTypeNames) := by
        rcases hget : alGet ((rows.foldl (wvStep wvMap) {}).ex_scores) r.soc with _ | inner
        · rw [alGetD, hget]
          exact ⟨keysUnique_nil, by simp⟩
        · rw [alGetD, hget, Option.getD_some]
          exact ihm (r.soc, inner) (alGet_mem _ _ _ hget)
      constructor
      · exact alSet_keysUnique _ _ _ ihu
      · intro p hp
        rcases alSet_mem_strong _ _ _ p hp with h | h
        · subst h
          constructor
          · exact alSet_keysUnique _ _ _ hinner.1
          · intro kv hkv
            rcases alSet_mem_strong _ _ _ kv hkv with h' | h'
            · subst h'; exact hname
            · exact hinner.2 kv h'
        · exact ihm p h

/-- What the `Values` constructor computes on a duplicate-free dict with
valid keys: each field takes the clamped dict value when present, else the
start value. -/
def setAllValues (t : Values) (l : List (String × ℚ)) : Values :=
  { stability := (alGet l "stability").elim t.stability clamp,
    financial_security := (alGet l "financial_security").elim t.financial_security clamp,
    prestige := (alGet l "prestige").elim t.prestige clamp,
    autonomy := (alGet l "autonomy").elim t.autonomy clamp,
    helping_others := (alGet l "helping_others").elim t.helping_others clamp,
    work_life_balance := (alGet l "work_life_balance").elim t.work_life_balance clamp }

theorem values_foldl_setE_eval :
    ∀ (l : List (String × ℚ)) (t : Values), KeysUnique l →
      (∀ kv ∈ l, kv.1 ∈ valueTypeNames) →
      l.foldlM (fun (t : Values) kv => t.setE kv.1 kv.2) t = .ok (setAllValues t l) := by
  intro l
  induction l with
  | nil =>
    intro t _ _
    rfl
  | cons hd tl ih =>
    intro t hu hv
    obtain ⟨hhd, htl⟩ := List.pairwise_cons.mp hu
    have hnone : alGet tl hd.1 = none :=
      alGet_eq_none_of_forall_ne tl hd.1 (fun kv hkv => (hhd kv hkv).symm)
    have hk : hd.1 ∈ valueTypeNames := hv hd (List.mem_cons_self _ _)
    have hrest : ∀ t' : Values,
        tl.foldlM (fun (t : Values) kv => t.setE kv.1 kv.2) t' = .ok (setAllValues t' tl) :=
      fun t' => ih t' htl (fun kv hkv => hv kv (List.mem_cons_of_mem _ hkv))
    have hbind : ∀ x : Values,
        ((Except.ok x : Except String Values) >>=
          fun t => tl.foldlM (fun (t : Values) kv => t.setE kv.1 kv.2) t)
          = tl.foldlM (fun (t : Values) kv => t.setE kv.1 kv.2) x := fun _ => rfl
    simp only [valueTypeNames, List.mem_cons, List.not_mem_nil, or_false] at hk
    rcases hd with ⟨k, v⟩
    simp only at hk hnone
    rcases hk with hk | hk | hk | hk | hk | hk <;> subst hk
    · rw [List.foldlM,
        show Values.setE t "stability" v = .ok { t with stability := clamp v } from rfl,
        hbind, hrest]
      simp [setAllValues, alGet_cons, hnone]
    · rw [List.foldlM,
        show Values.setE t "financial_security" v = .ok { t with financial_security := clamp v } from rfl,
        hbind, hrest]
      simp [setAllValues, alGet_cons, hnone]
    · rw [List.foldlM,
        show Values.setE t "prestige" v = .ok { t with prestige := clamp v } from rfl,
        hbind, hrest]
      simp [setAllValues, alGet_cons, hnone]
    · rw [List.foldlM,
        show Values.setE t "autonomy" v = .ok { t with autonomy := clamp v } from rfl,
        hbind, hrest]
      simp [setAllValues, alGet_cons, hnone]
    · rw [List.foldlM,
        show Values.setE t "helping_others" v = .ok { t with helping_others := clamp v } from rfl,
        hbind, hrest]
      simp [setAllValues, alGet_cons, hnone]
    · rw [List.foldlM,
        show Values.setE t "work_life_balance" v = .ok { t with work_life_balance := clamp v } from rfl,
        hbind, hrest]
      simp [setAllValues, alGet_cons, hnone]

/-- The per-dimension selector of the combine phase. -/
def gVH (hits : List String) (n : String) (v : ℚ) : ℚ :=
  if !hits.isEmpty then (if hits.contains n then v else 0) else v

theorem combineValuesEntry_eval (hits : List String) (inner : List (String × ℚ))
    (hu : KeysUnique inner) (hv : ∀ kv ∈ inner, kv.1 ∈ valueTypeNames) :
    combineValuesEntry hits inner =
      .ok (setAllValues {} (inner.map (fun nv => (nv.1, gVH hits nv.1 nv.2)))) := by
  have hfun : (fun nv : String × ℚ =>
      if !hits.isEmpty then (nv.1, if hits.contains nv.1 then nv.2 else 0) else (nv.1, nv.2))
      = fun nv : String × ℚ => (nv.1, gVH hits nv.1 nv.2) := by
    funext nv
    unfold gVH
    by_cases h : !hits.isEmpty <;> simp [h]
  unfold combineValuesEntry Values.initE
  simp only [hfun]
  apply values_foldl_setE_eval
  · unfold KeysUnique at hu ⊢
    rw [List.pairwise_map]
    exact hu.imp (fun h => h)
  · intro kv hkv
    rcases List.mem_map.mp hkv with ⟨nv, hnv, hmap⟩
    rw [← hmap]
    exact hv nv hnv

theorem alGet_foldl_alSet {β γ : Type} (exs : List (String × β)) (f : String → β → γ) :
    KeysUnique exs → ∀ (acc : List (String × γ)) (soc : String),
      alGet (exs.foldl (fun a p => alSet a p.1 (f p.1 p.2)) acc) soc =
        match alGet exs soc with
        | some b => some (f soc b)
        | none => alGet acc soc := by
  induction exs with
  | nil => intro _ acc soc; rfl
  | cons hd tl ih =>
    intro hu acc soc
    obtain ⟨hhd, htl⟩ := List.pairwise_cons.mp hu
    rw [List.foldl_cons]
    rw [ih htl (alSet acc hd.1 (f hd.1 hd.2)) soc]
    rw [show (hd :: tl) = (hd.1, hd.2) :: tl from rfl, alGet_cons]
    by_cases hk : hd.1 == soc
    · have he : hd.1 = soc := by simpa using hk
      have hnone : alGet tl soc = none := by
        apply alGet_eq_none_of_forall_ne
        intro kv hkv
        rw [← he]
        exact (hhd kv hkv).symm
      rw [if_pos hk, hnone]
      subst he
      rw [alGet_alSet_self]
    · have hne : soc ≠ hd.1 := fun he => by simp [he] at hk
      rw [if_neg hk]
      rcases h : alGet tl soc with _ | b
      · rw [alGet_alSet_ne _ _ _ _ hne]
      · rfl

/-- `Values.get` on a constructed record, at each valid dimension name. -/
theorem values_get_setAll (l : List (String × ℚ)) :
    ∀ dim ∈ valueTypeNames,
      Values.get (setAllValues {} l) dim 0 = (alGet l dim).elim 0 clamp := by
  intro dim hdim
  simp only [valueTypeNames, List.mem_cons, List.not_mem_nil, or_false] at hdim
  rcases hdim with h | h | h | h | h | h <;> (subst h; rfl)

/-- C5: for every work-values mapping table with valid internal names and
every row list, the builder succeeds, and for every occupation it emits: when
the occupation has at least one top-3 (VH) indicator, only the indicated
dimensions keep their (clamped) stored EX magnitude and every other value
dimension is exactly 0 regardless of its magnitude; with no indicator, every
dimension keeps its magnitude unfiltered. -/
theorem build_values_top3_dominates (wvMap : String → Option (String × ℚ))
    (rows : List Row)
    (hvalid : ∀ e n w, wvMap e = some (n, w) → n ∈ valueTypeNames) :
    ∃ out, buildValuesFromWorkValues wvMap rows = .ok out ∧
      ∀ soc vals, alGet out soc = some vals →
        ∀ dim ∈ valueTypeNames,
          Values.get vals dim 0 =
            if hasVH wvMap rows soc then
              (if isVHHit wvMap rows soc dim then clamp ((exMag wvMap rows soc dim).getD 0)
               else 0)
            else clamp ((exMag wvMap rows soc dim).getD 0) := by
  obtain ⟨hexu, hexm⟩ := wv_ex_invariants wvMap hvalid rows
  have hfold : ∀ (exs : List (String × List (String × ℚ))),
      (∀ p ∈ exs, KeysUnique p.2 ∧ ∀ kv ∈ p.2, kv.1 ∈ valueTypeNames) →
      ∀ acc : List (String × Values),
      (exs.foldlM (fun acc p => do
        let vals ← combineValuesEntry
          (alGetD ((rows.foldl (wvStep wvMap) {}).vh_hits) p.1 []) p.2
        return alSet acc p.1 vals) acc) =
      .ok (exs.foldl (fun acc p => alSet acc p.1
        (setAllValues {} (p.2.map (fun nv =>
          (nv.1, gVH (alGetD ((rows.foldl (wvStep wvMap) {}).vh_hits) p.1 []) nv.1 nv.2))))) acc) := by
    intro exs
    induction exs with
    | nil => intro _ acc; rfl
    | cons hd tl ih =>
      intro hmem acc
      obtain ⟨hu, hv⟩ := hmem hd (List.mem_cons_self _ _)
      have hstep := combineValuesEntry_eval
        (alGetD ((rows.foldl (wvStep wvMap) {}).vh_hits) hd.1 []) hd.2 hu hv
      rw [List.foldl_cons,
        ← ih (fun p hp => hmem p (List.mem_cons_of_mem _ hp))]
      simp only [List.foldlM, hstep, Except.instMonad, Except.bind, Except.pure, bind, pure]
  have hbuild : buildValuesFromWorkValues wvMap rows =
      .ok (((rows.foldl (wvStep wvMap) {}).ex_scores).foldl (fun acc p =>
        alSet acc p.1 (setAllValues {} (p.2.map (fun nv =>
          (nv.1, gVH (alGetD ((rows.foldl (wvStep wvMap) {}).vh_hits) p.1 []) nv.1 nv.2))))) []) := by
    unfold buildValuesFromWorkValues
    exact hfold _ hexm []
  refine ⟨_, hbuild, ?_⟩
  intro soc vals hvals
  have hlook := alGet_foldl_alSet ((rows.foldl (wvStep wvMap) {}).ex_scores)
    (fun soc b => setAllValues {} (b.map (fun nv =>
      (nv.1, gVH (alGetD ((rows.foldl (wvStep wvMap) {}).vh_hits) soc []) nv.1 nv.2))))
    hexu [] soc
  rw [hlook] at hvals
  rcases hget : alGet ((rows.foldl (wvStep wvMap) {}).ex_scores) soc with _ | inner
  · rw [hget] at hvals
    simp [alGet, List.find?] at hvals
  · rw [hget] at hvals
    simp only [Option.some.injEq] at hvals
    subst hvals
    intro dim hdim
    rw [values_get_setAll _ dim hdim,
      alGet_map_valued inner (gVH (alGetD ((rows.foldl (wvStep wvMap) {}).vh_hits) soc [])) dim]
    have hmag : alGet inner dim = exMag wvMap rows soc dim := by
      have h := wv_ex_lookup wvMap rows soc dim
      rw [alGetD, hget, Option.getD_some] at h
      exact h
    have hconts := wv_hits_contains wvMap rows soc dim
    have hne := wv_hits_nonempty wvMap rows soc
    rw [hmag]
    rcases hm : exMag wvMap rows soc dim with _ | v
    · simp only [Option.map_none', Option.elim_none, Option.getD_none]
      by_cases hb1 : hasVH wvMap rows soc <;>
        by_cases hb2 : isVHHit wvMap rows soc dim <;>
          (simp [hb1, hb2, clamp]; try norm_num)
    · simp only [Option.map_some', Option.elim_some, Option.getD_some]
      unfold gVH
      rw [hconts, hne]
      by_cases hb1 : hasVH wvMap rows soc <;>
        by_cases hb2 : isVHHit wvMap rows soc dim <;>
          (simp [hb1, hb2, clamp]; try norm_num)

/-- Witness for C5: the table sending "Achievement" to dimension
`prestige` with weight 1, on two rows for occupation S — an EX magnitude 4 on
"Achievement" (stored as `(4−1)/6 = 1/2`) and a VH top-3 indicator with code 2
(naming "Working Conditions", unmapped, hence no hit from it) — plus a VH
code-1 row marking `prestige`: the builder succeeds and `prestige` keeps its
magnitude 1/2 while `stability` scores 0. -/
theorem build_values_top3_dominates_witness :
    ∃ out, buildValuesFromWorkValues
        (fun e => if e = "Achievement" then some ("prestige", 1) else none)
        [{ soc := "S", element_name := "Achievement", scale_id := "EX", data_value := some 4 },
         { soc := "S", element_name := "x", scale_id := "VH", data_value := some 1 }] = .ok out ∧
      ∀ soc vals, alGet out soc = some vals →
        ∀ dim ∈ valueTypeNames,
          Values.get vals dim 0 =
            if hasVH (fun e => if e = "Achievement" then some ("prestige", 1) else none)
                [{ soc := "S", element_name := "Achievement", scale_id := "EX", data_value := some 4 },
                 { soc := "S", element_name := "x", scale_id := "VH", data_value := some 1 }] soc then
              (if isVHHit (fun e => if e = "Achievement" then some ("prestige", 1) else none)
                  [{ soc := "S", element_name := "Achievement", scale_id := "EX", data_value := some 4 },
                   { soc := "S", element_name := "x", scale_id := "VH", data_value := some 1 }] soc dim then
                clamp ((exMag (fun e => if e = "Achievement" then some ("prestige", 1) else none)
                  [{ soc := "S", element_name := "Achievement", scale_id := "EX", data_value := some 4 },
                   { soc := "S", element_name := "x", scale_id := "VH", data_value := some 1 }] soc dim).getD 0)
               else 0)
            else
              clamp ((exMag (fun e => if e = "Achievement" then some ("prestige", 1) else none)
                [{ soc := "S", element_name := "Achievement", scale_id := "EX", data_value := some 4 },
                 { soc := "S", element_name := "x", scale_id := "VH", data_value := some 1 }] soc dim).getD 0) := by
  apply build_values_top3_dominates
  intro e n w h
  by_cases he : e = "Achievement"
  · rw [if_pos he] at h
    cases h
    simp [valueTypeNames]
  · rw [if_neg he] at h
    cases h

end CareersAI
